import Mathlib

/-!
# File upload service: upload lifecycle

A shallow embedding of `main.go`: the `uploads` table and the three statements
run against it, the three HTTP handlers, and the relocation goroutine started
by `UploadFileHandler`.

Conventions of the embedding.

* Everything outside the program (the database server and driver, the file
  system, the request parser of `net/http`) is an *outcome* argument: a value
  saying how one call into it ended.  The functions below are total in these
  outcomes, so a theorem quantified over them covers every behaviour of the
  surroundings.
* A statement that returns an `error` took no effect.  A statement that
  panics may have taken effect before the fault (`applied`).
* `int` and `int64` are both 64 bit wide; `int(insertID)` keeps its value and
  identifiers are integers.  `strconv.Atoi` checks the 64-bit range.
* Log output and response header fields are not modelled.
-/

namespace FileUpload

/-! ## Models -/

/-- The `Upload` struct; `UploadTime` is a timestamp in seconds. -/
structure Upload where
  ID : Int
  Filename : String
  SourcePath : String
  DestinationPath : String
  UploadTime : Nat
  Status : String
  ErrorMessage : String
  deriving DecidableEq

/-- Modelled from the spec: the `uploads` table, whose schema is not in the
source.  The identifier is assigned by the store on creation and is
monotonically unique (`lastID` is the counter), and a new record has an empty
error detail. -/
structure DB where
  rows : List Upload
  lastID : Int
  deriving DecidableEq

/-- The table before any upload. -/
def DB.empty : DB := { rows := [], lastID := 0 }

/-- A value passed to `panic`: one that implements `error` (with its
`Error()` text) or any other value (with its `%v` rendering).  `recover`
never yields `nil` for a panic in progress. -/
inductive PanicValue where
  | error (msg : String)
  | other (repr : String)
  deriving DecidableEq

/-- Result of a call that can panic. -/
inductive Ret (α : Type) where
  | val (a : α)
  | panic (v : PanicValue)
  deriving DecidableEq

/-- How `db.Exec` ends for the `UPDATE` statement. -/
inductive ExecOutcome where
  | ok
  | err (e : String)
  | panic (v : PanicValue) (applied : Bool)
  deriving DecidableEq

/-- How the `INSERT` of `insertUploadRecord` ends: `db.Exec` fails, or it
succeeds and `result.LastInsertId()` fails, or both succeed. -/
inductive InsertOutcome where
  | execErr (e : String)
  | lastInsertIdErr (e : String)
  | ok
  deriving DecidableEq

/-- How `os.Rename` ends; `err` carries the text of the underlying system error. -/
inductive RenameOutcome where
  | ok
  | err (errno : String)
  | panic (v : PanicValue)
  deriving DecidableEq

/-- The `*os.LinkError` returned by `os.Rename`. -/
structure LinkError where
  Op : String
  Old : String
  New : String
  Err : String
  deriving DecidableEq

/-- `(*LinkError).Error`. -/
def LinkError.Error (e : LinkError) : String :=
  e.Op ++ " " ++ e.Old ++ " " ++ e.New ++ ": " ++ e.Err

/-- The error of `getUploadByID`: `sql.ErrNoRows` or any other failure. -/
inductive LookupError where
  | ErrNoRows
  | other (e : String)
  deriving DecidableEq

/-! ## Statements on the table -/

/-- `INSERT INTO uploads (filename, source_path, destination_path, status)`:
the store assigns the identifier and the upload time, the error detail takes
its default. -/
def DB.execInsert (db : DB) (now : Nat) (filename sourcePath destinationPath status : String) : DB :=
  { rows := db.rows ++ [{ ID := db.lastID + 1, Filename := filename, SourcePath := sourcePath,
                          DestinationPath := destinationPath, UploadTime := now,
                          Status := status, ErrorMessage := "" }],
    lastID := db.lastID + 1 }

/-- `UPDATE uploads SET status = ?, error_message = ? WHERE id = ?`. -/
def DB.execUpdate (db : DB) (status errorMessage : String) (id : Int) : DB :=
  { db with rows := db.rows.map fun u =>
      if u.ID = id then { u with Status := status, ErrorMessage := errorMessage } else u }

/-- `SELECT ... FROM uploads WHERE id = ?`, first row. -/
def DB.queryRow (db : DB) (id : Int) : Option Upload :=
  db.rows.find? fun u => decide (u.ID = id)

/-- `insertUploadRecord`. -/
def insertUploadRecord (o : InsertOutcome) (now : Nat) (db : DB) (upload : Upload) :
    DB × Except String Int :=
  match o with
  | .execErr e => (db, .error e)
  | .lastInsertIdErr e =>
    (db.execInsert now upload.Filename upload.SourcePath upload.DestinationPath upload.Status,
      .error e)
  | .ok =>
    (db.execInsert now upload.Filename upload.SourcePath upload.DestinationPath upload.Status,
      .ok (db.lastID + 1))

/-- `updateUploadStatus`: the returned `error`, or the panic raised inside. -/
def updateUploadStatus (o : ExecOutcome) (db : DB) (uploadID : Int) (status errorMessage : String) :
    DB × Ret (Option String) :=
  match o with
  | .ok => (db.execUpdate status errorMessage uploadID, .val none)
  | .err e => (db, .val (some e))
  | .panic v applied =>
    (if applied then db.execUpdate status errorMessage uploadID else db, .panic v)

/-- `getUploadByID`; `fault` is a failure of the query or of `Scan` other
than an empty result. -/
def getUploadByID (fault : Option String) (db : DB) (uploadID : Int) : Except LookupError Upload :=
  match fault with
  | some e => .error (.other e)
  | none =>
    match db.queryRow uploadID with
    | some upload => .ok upload
    | none => .error .ErrNoRows

/-- `moveFile`. -/
def moveFile (o : RenameOutcome) (sourcePath destinationPath : String) : Ret (Option LinkError) :=
  match o with
  | .ok => .val none
  | .err errno => .val (some { Op := "rename", Old := sourcePath, New := destinationPath, Err := errno })
  | .panic v => .panic v

/-! ## The relocation goroutine -/

/-- Calls into the store and the file system, recorded in program order. -/
inductive Call where
  | osCreate (path : String)
  | ioCopy (path : String) (content : String)
  | osRemove (path : String)
  | insertUploadRecord (upload : Upload)
  | go (upload : Upload)
  | moveFile (sourcePath destinationPath : String)
  | updateUploadStatus (uploadID : Int) (status errorMessage : String)
  | getUploadByID (uploadID : Int)
  | filepathWalk (root : String)
  deriving DecidableEq

/-- How the goroutine ends: it returns, or a panic leaves it unrecovered. -/
inductive TaskExit where
  | returned
  | crashed (v : PanicValue)
  deriving DecidableEq

/-- Outcomes of the calls the goroutine makes: `os.Rename`, the `db.Exec` of
the status update in the body, and the `db.Exec` of the status update in the
deferred function. -/
structure TaskEnv where
  rename : RenameOutcome
  update : ExecOutcome
  recovery : ExecOutcome
  deriving DecidableEq

/-- State of the store, calls made and exit of one run of the goroutine. -/
structure TaskResult where
  db : DB
  calls : List Call
  exit : TaskExit
  deriving DecidableEq

/-- `Error()` text of `err` in the deferred function: the recovered value
itself when it is an `error`, else `fmt.Errorf("pkg: %v", r)`. -/
def panicError : PanicValue → String
  | .error msg => msg
  | .other repr => "pkg: " ++ repr

/-- The deferred function of the goroutine when `recover()` yields `r`. -/
def recovered (o : ExecOutcome) (db : DB) (upload : Upload) (calls : List Call) (r : PanicValue) :
    TaskResult :=
  let errorMessage := "Panic: " ++ panicError r
  let calls := calls ++ [Call.updateUploadStatus upload.ID "failed" errorMessage]
  match updateUploadStatus o db upload.ID "failed" errorMessage with
  | (db, .val _) => { db := db, calls := calls, exit := .returned }
  | (db, .panic v) => { db := db, calls := calls, exit := .crashed v }

/-- The goroutine `go func(upload Upload)` of `UploadFileHandler`. -/
def relocationTask (env : TaskEnv) (db : DB) (upload : Upload) : TaskResult :=
  let calls := [Call.moveFile upload.SourcePath upload.DestinationPath]
  match moveFile env.rename upload.SourcePath upload.DestinationPath with
  | .panic r => recovered env.recovery db upload calls r
  | .val (some err) =>
    let calls := calls ++ [Call.updateUploadStatus upload.ID "failed" err.Error]
    match updateUploadStatus env.update db upload.ID "failed" err.Error with
    | (db, .val _) => { db := db, calls := calls, exit := .returned }
    | (db, .panic r) => recovered env.recovery db upload calls r
  | .val none =>
    let calls := calls ++ [Call.updateUploadStatus upload.ID "success" ""]
    match updateUploadStatus env.update db upload.ID "success" "" with
    | (db, .val _) => { db := db, calls := calls, exit := .returned }
    | (db, .panic r) => recovered env.recovery db upload calls r

/-! ## Requests and responses -/

/-- A file part of a multipart form; `openErr` is a failure of `Open`. -/
structure FileHeader where
  Filename : String
  content : String
  openErr : Option String
  deriving DecidableEq

/-- The parts of an `*http.Request` the handlers read: the method, the parsed
query parameters in order, and what `ParseMultipartForm` makes of the body
(an error, or the file parts by field name). -/
structure Request where
  Method : String
  query : List (String × String)
  form : Except String (List (String × FileHeader))

/-- `r.URL.Query().Get(key)`: the first value of the key, else the empty string. -/
def Request.queryGet (r : Request) (key : String) : String :=
  match r.query.find? fun kv => decide (kv.1 = key) with
  | some kv => kv.2
  | none => ""

/-- `r.FormFile(key)` on a parsed form. -/
def FormFile (form : List (String × FileHeader)) (key : String) : Except String FileHeader :=
  match form.find? fun kv => decide (kv.1 = key) with
  | none => .error "http: no such file"
  | some kv =>
    match kv.2.openErr with
    | some e => .error e
    | none => .ok kv.2

/-- What is written to the response body. -/
inductive Body where
  | text (s : String)
  | upload (u : Upload)
  | files (l : List String)
  deriving DecidableEq

/-- The `http.ResponseWriter`: the status line once written, and the body. -/
structure ResponseWriter where
  status : Option Nat
  body : List Body
  deriving DecidableEq

/-- A fresh response. -/
def ResponseWriter.new : ResponseWriter := { status := none, body := [] }

/-- `w.WriteHeader(code)`: only the first call sets the status. -/
def ResponseWriter.WriteHeader (w : ResponseWriter) (code : Nat) : ResponseWriter :=
  match w.status with
  | some _ => w
  | none => { w with status := some code }

/-- `w.Write`: sends status 200 first when none was written. -/
def ResponseWriter.Write (w : ResponseWriter) (b : Body) : ResponseWriter :=
  let w := w.WriteHeader 200
  { w with body := w.body ++ [b] }

/-- `http.Error(w, msg, code)`. -/
def httpError (w : ResponseWriter) (msg : String) (code : Nat) : ResponseWriter :=
  (w.WriteHeader code).Write (.text (msg ++ "\n"))

/-- `json.NewEncoder(w).Encode(v)` followed by the handler's error branch;
`encode` is a failure of the encoder. -/
def encodeJSON (w : ResponseWriter) (encode : Option String) (v : Body) : ResponseWriter :=
  match encode with
  | some _ => httpError w "Failed to encode JSON" 500
  | none => w.Write v

/-- Functions of `path/filepath` and `os.TempDir()`, parameters of the model. -/
structure Paths where
  TempDir : String
  Join : String → String → String
  Rel : String → String → Except String String

/-- What a handler leaves behind: the response, the store, the calls made and
the goroutine it started. -/
structure HandlerResult where
  w : ResponseWriter
  db : DB
  calls : List Call
  task : Option Upload
  deriving DecidableEq

/-! ## `strconv.Atoi` -/

/-- Value of a decimal digit. -/
def digitValue (c : Char) : Option Nat :=
  if '0' ≤ c ∧ c ≤ '9' then some (c.toNat - '0'.toNat) else none

/-- Value of a run of decimal digits, most significant first, after `acc`. -/
def parseDigits : List Char → Nat → Option Nat
  | [], acc => some acc
  | c :: cs, acc =>
    match digitValue c with
    | some d => parseDigits cs (acc * 10 + d)
    | none => none

/-- Sign and digits of the text given to `Atoi`. -/
def splitSign : List Char → Bool × List Char
  | '-' :: cs => (true, cs)
  | '+' :: cs => (false, cs)
  | cs => (false, cs)

/-- `strconv.Atoi`: an optional sign and one or more decimal digits whose
value fits 64 bits; anything else is an error. -/
def Atoi (s : String) : Except String Int :=
  let (neg, digits) := splitSign s.data
  if digits = [] then .error ("strconv.Atoi: parsing " ++ s.quote ++ ": invalid syntax")
  else
    match parseDigits digits 0 with
    | none => .error ("strconv.Atoi: parsing " ++ s.quote ++ ": invalid syntax")
    | some n =>
      let v : Int := if neg then -(n : Int) else (n : Int)
      if v < -(2 : Int) ^ 63 ∨ (2 : Int) ^ 63 ≤ v then
        .error ("strconv.Atoi: parsing " ++ s.quote ++ ": value out of range")
      else .ok v

/-! ## Handlers -/

/-- Outcomes of the calls `UploadFileHandler` makes after the form is read:
the errors of `os.Create`, `io.Copy` and `os.Remove`, how the `INSERT` ends,
and the time the store gives the new record. -/
structure UploadEnv where
  create : Option String
  copy : Option String
  insert : InsertOutcome
  now : Nat
  remove : Option String
  deriving DecidableEq

/-- The body of the 201 response. -/
def responseMessage (uploadID : Int) : String :=
  "\x7b\"message\": \"File uploaded successfully. Processing in the background.\", \"uploadID\": "
    ++ toString uploadID ++ "\x7d"

/-- `UploadFileHandler(db, uploadDir)` serving `r`.  The goroutine it starts
is returned in `task`, not run. -/
def UploadFileHandler (fs : Paths) (env : UploadEnv) (db : DB) (uploadDir : String) (r : Request) :
    HandlerResult :=
  let w := ResponseWriter.new
  if r.Method ≠ "POST" then
    { w := httpError w "Method not allowed" 405, db := db, calls := [], task := none }
  else
    match r.form with
    | .error e =>
      { w := httpError w ("Failed to parse form: " ++ e) 400, db := db, calls := [], task := none }
    | .ok form =>
      match FormFile form "file" with
      | .error e =>
        { w := httpError w ("Failed to get file: " ++ e) 400, db := db, calls := [], task := none }
      | .ok header =>
        let filename := header.Filename
        let sourcePath := fs.Join fs.TempDir filename
        let destinationPath := fs.Join uploadDir filename
        let calls := [Call.osCreate sourcePath]
        match env.create with
        | some e =>
          { w := httpError w ("Failed to create temporary file: " ++ e) 500,
            db := db, calls := calls, task := none }
        | none =>
          let calls := calls ++ [Call.ioCopy sourcePath header.content]
          match env.copy with
          | some e =>
            { w := httpError w ("Failed to save file to temporary location: " ++ e) 500,
              db := db, calls := calls, task := none }
          | none =>
            let upload : Upload :=
              { ID := 0, Filename := filename, SourcePath := sourcePath,
                DestinationPath := destinationPath, UploadTime := 0,
                Status := "pending", ErrorMessage := "" }
            let calls := calls ++ [Call.insertUploadRecord upload]
            match insertUploadRecord env.insert env.now db upload with
            | (db, .error e) =>
              { w := httpError w ("Failed to create database record: " ++ e) 500,
                db := db, calls := calls ++ [Call.osRemove sourcePath], task := none }
            | (db, .ok insertID) =>
              let upload := { upload with ID := insertID }
              { w := (w.WriteHeader 201).Write (.text (responseMessage upload.ID)),
                db := db, calls := calls ++ [Call.go upload], task := some upload }

/-- Outcomes of the calls `GetUploadStatusHandler` makes: a failure of the
lookup other than an empty result, and a failure of the JSON encoder. -/
structure StatusEnv where
  fault : Option String
  encode : Option String
  deriving DecidableEq

/-- `GetUploadStatusHandler(db)` serving `r`. -/
def GetUploadStatusHandler (env : StatusEnv) (db : DB) (r : Request) : HandlerResult :=
  let w := ResponseWriter.new
  if r.Method ≠ "GET" then
    { w := httpError w "Method not allowed" 405, db := db, calls := [], task := none }
  else
    let uploadIDStr := r.queryGet "uploadID"
    if uploadIDStr = "" then
      { w := httpError w "uploadID is required" 400, db := db, calls := [], task := none }
    else
      match Atoi uploadIDStr with
      | .error _ =>
        { w := httpError w "Invalid uploadID" 400, db := db, calls := [], task := none }
      | .ok uploadID =>
        let calls := [Call.getUploadByID uploadID]
        match getUploadByID env.fault db uploadID with
        | .error .ErrNoRows =>
          { w := httpError w "Upload not found" 404, db := db, calls := calls, task := none }
        | .error (.other _) =>
          { w := httpError w "Failed to retrieve upload" 500, db := db, calls := calls, task := none }
        | .ok upload =>
          { w := encodeJSON (w.WriteHeader 200) env.encode (.upload upload),
            db := db, calls := calls, task := none }

/-- One visit of `filepath.Walk`: the path, whether it is a directory, and
the error `Walk` met there. -/
structure WalkEntry where
  path : String
  isDir : Bool
  err : Option String
  deriving DecidableEq

/-- Outcomes of the calls `ListFilesHandler` makes: the visits of
`filepath.Walk` in order, and a failure of the JSON encoder. -/
structure ListEnv where
  walk : List WalkEntry
  encode : Option String
  deriving DecidableEq

/-- The function `ListFilesHandler` hands to `filepath.Walk`, on `files`. -/
def walkFn (fs : Paths) (uploadDir : String) (files : List String) (e : WalkEntry) :
    Except String (List String) :=
  match e.err with
  | some err => .error err
  | none =>
    if !e.isDir then
      match fs.Rel uploadDir e.path with
      | .error err => .error err
      | .ok relativePath => .ok (files ++ [relativePath])
    else .ok files

/-- `filepath.Walk`: the visits in order, stopping at the first error. -/
def filepathWalk (fs : Paths) (uploadDir : String) : List WalkEntry → List String →
    Except String (List String)
  | [], files => .ok files
  | e :: es, files =>
    match walkFn fs uploadDir files e with
    | .error err => .error err
    | .ok files => filepathWalk fs uploadDir es files

/-- `ListFilesHandler(uploadDir)` serving `r`. -/
def ListFilesHandler (fs : Paths) (env : ListEnv) (uploadDir : String) (r : Request) :
    ResponseWriter × List Call :=
  let w := ResponseWriter.new
  if r.Method ≠ "GET" then (httpError w "Method not allowed" 405, [])
  else
    match filepathWalk fs uploadDir env.walk [] with
    | .error _ => (httpError w "Failed to list files" 500, [Call.filepathWalk uploadDir])
    | .ok files =>
      (encodeJSON (w.WriteHeader 200) env.encode (.files files), [Call.filepathWalk uploadDir])

/-! ## The running system -/

/-- Where a started goroutine stands: before `moveFile`, before the status
update of the body, inside the deferred function before its status update,
or ended. -/
inductive TaskState where
  | moving (upload : Upload)
  | updating (upload : Upload) (status errorMessage : String)
  | recovering (upload : Upload) (r : PanicValue)
  | returned
  | crashed (v : PanicValue)
  deriving DecidableEq

/-- One call of a goroutine, with the outcome of that call. -/
def TaskState.step (ro : RenameOutcome) (eo : ExecOutcome) (db : DB) : TaskState → DB × TaskState
  | .moving upload =>
    match moveFile ro upload.SourcePath upload.DestinationPath with
    | .val none => (db, .updating upload "success" "")
    | .val (some err) => (db, .updating upload "failed" err.Error)
    | .panic r => (db, .recovering upload r)
  | .updating upload status errorMessage =>
    match updateUploadStatus eo db upload.ID status errorMessage with
    | (db, .val _) => (db, .returned)
    | (db, .panic r) => (db, .recovering upload r)
  | .recovering upload r =>
    match updateUploadStatus eo db upload.ID "failed" ("Panic: " ++ panicError r) with
    | (db, .val _) => (db, .returned)
    | (db, .panic v) => (db, .crashed v)
  | .returned => (db, .returned)
  | .crashed v => (db, .crashed v)

/-- The store and the goroutines started so far. -/
structure Sys where
  db : DB
  tasks : List TaskState
  deriving DecidableEq

/-- The system at start: an empty table, no goroutine. -/
def Sys.init : Sys := { db := DB.empty, tasks := [] }

/-- What happens next: an upload request is served, or the goroutine at
position `i` makes its next call. -/
inductive Action where
  | upload (env : UploadEnv) (r : Request)
  | task (i : Nat) (ro : RenameOutcome) (eo : ExecOutcome)

/-- One step of the system. -/
def Sys.next (fs : Paths) (uploadDir : String) (s : Sys) : Action → Sys
  | .upload env r =>
    let h := UploadFileHandler fs env s.db uploadDir r
    { db := h.db,
      tasks := s.tasks ++ (match h.task with
        | some upload => [TaskState.moving upload]
        | none => []) }
  | .task i ro eo =>
    match s.tasks[i]? with
    | none => s
    | some t => { db := (t.step ro eo s.db).1, tasks := s.tasks.set i (t.step ro eo s.db).2 }

/-- The system after a sequence of steps. -/
def Sys.run (fs : Paths) (uploadDir : String) (s : Sys) (actions : List Action) : Sys :=
  actions.foldl (Sys.next fs uploadDir) s

/-! ## Records named in the statements -/

/-- The record `UploadFileHandler` builds for a file named `filename`, before
the store assigns an identifier. -/
def newUpload (fs : Paths) (uploadDir filename : String) : Upload :=
  { ID := 0, Filename := filename, SourcePath := fs.Join fs.TempDir filename,
    DestinationPath := fs.Join uploadDir filename, UploadTime := 0,
    Status := "pending", ErrorMessage := "" }

/-- The row the store holds for that record once inserted at time `now` under
identifier `id`. -/
def storedUpload (fs : Paths) (uploadDir filename : String) (now : Nat) (id : Int) : Upload :=
  { ID := id, Filename := filename, SourcePath := fs.Join fs.TempDir filename,
    DestinationPath := fs.Join uploadDir filename, UploadTime := now,
    Status := "pending", ErrorMessage := "" }

/-! ## Sample inputs -/

/-- Paths joined by a slash, under `/tmp`. -/
def samplePaths : Paths :=
  { TempDir := "/tmp", Join := fun a b => a ++ "/" ++ b, Rel := fun _ p => .ok p }

/-- The file part `report.txt`. -/
def sampleHeader : FileHeader := { Filename := "report.txt", content := "hello", openErr := none }

/-- An upload request carrying `report.txt` in field `file`. -/
def sampleUpload : Request := { Method := "POST", query := [], form := .ok [("file", sampleHeader)] }

/-- An upload request whose form has no field `file`. -/
def sampleNoFile : Request := { Method := "POST", query := [], form := .ok [("other", sampleHeader)] }

/-- A status request for identifier 99999. -/
def sampleStatus : Request :=
  { Method := "GET", query := [("uploadID", "99999")], form := .error "request Content-Type isn't multipart/form-data" }

/-- A status request whose identifier is not a number. -/
def sampleBadStatus : Request :=
  { Method := "GET", query := [("uploadID", "12a")], form := .error "request Content-Type isn't multipart/form-data" }

/-- A request with method `DELETE`. -/
def sampleDelete : Request :=
  { Method := "DELETE", query := [("uploadID", "1")], form := .ok [("file", sampleHeader)] }

/-- Every call of the upload handler succeeds. -/
def sampleEnv : UploadEnv := { create := none, copy := none, insert := .ok, now := 7, remove := none }

/-- The lookup and the encoder succeed. -/
def sampleStatusEnv : StatusEnv := { fault := none, encode := none }

/-- An empty upload directory. -/
def sampleListEnv : ListEnv := { walk := [], encode := none }

/-- Whether a call is a move attempt. -/
def Call.isMove : Call → Bool
  | .moveFile _ _ => true
  | _ => false

/-- A store holding the pending record of `report.txt` under identifier 1. -/
def samplePendingDB : DB :=
  { rows := [storedUpload samplePaths "uploads" "report.txt" 7 1], lastID := 1 }

/-- The record handed to the goroutine for that upload. -/
def sampleTask : Upload := { newUpload samplePaths "uploads" "report.txt" with ID := 1 }

/-- The move faults and the store then refuses the status update of the
deferred function. -/
def sampleFaultEnv : TaskEnv :=
  { rename := .panic (.error "runtime error: invalid memory address or nil pointer dereference"),
    update := .ok,
    recovery := .err "dial tcp 127.0.0.1:3306: connect: connection refused" }

/-- The move faults and the status update of the deferred function succeeds. -/
def sampleRecoveredEnv : TaskEnv :=
  { rename := .panic (.error "runtime error: invalid memory address or nil pointer dereference"),
    update := .ok, recovery := .ok }

/-- The move fails on a read-only destination and the status update succeeds. -/
def sampleMoveErrEnv : TaskEnv :=
  { rename := .err "permission denied", update := .ok, recovery := .ok }

/-! ## Predicates on the running system -/

/-- A status with its error detail as the lifecycle allows them: the detail
is non-empty exactly for `failed`, and the status is one of the three. -/
def GoodPair (status errorMessage : String) : Prop :=
  (errorMessage ≠ "" ↔ status = "failed") ∧
  (status = "pending" ∨ status = "success" ∨ status = "failed")

/-- Every row, and every status update a goroutine is about to issue, is a
good pair; such an update never writes `pending`. -/
def Sys.Good (s : Sys) : Prop :=
  (∀ u ∈ s.db.rows, GoodPair u.Status u.ErrorMessage) ∧
  (∀ upload status errorMessage, TaskState.updating upload status errorMessage ∈ s.tasks →
    GoodPair status errorMessage ∧ status ≠ "pending")

/-- The identifier a goroutine may still write to; none once it has ended. -/
def TaskState.liveID : TaskState → Option Int
  | .moving upload => some upload.ID
  | .updating upload _ _ => some upload.ID
  | .recovering upload _ => some upload.ID
  | .returned => none
  | .crashed _ => none

/-- The identifier a goroutine carries while its body runs, before
`moveFile` and before the status update of the body; none afterwards. -/
def TaskState.bodyID : TaskState → Option Int
  | .moving upload => some upload.ID
  | .updating upload _ _ => some upload.ID
  | .recovering _ _ => none
  | .returned => none
  | .crashed _ => none

/-- Whether the action is a call of the running goroutine that carries `id`. -/
def Action.stepsTask (s : Sys) (id : Int) : Action → Bool
  | .task i _ _ =>
    match s.tasks[i]? with
    | some t => decide (t.liveID = some id)
    | none => false
  | .upload _ _ => false

/-- Whether the action is the status update of the deferred function of the
goroutine that carries `id`. -/
def Action.recovers (s : Sys) (id : Int) : Action → Bool
  | .task i _ _ =>
    match s.tasks[i]? with
    | some (.recovering u _) => decide (u.ID = id)
    | _ => false
  | .upload _ _ => false

/-- Whether the action is the status update of the body of the goroutine
that carries `id`, panicking after it took effect. -/
def Action.overwrites (s : Sys) (id : Int) : Action → Bool
  | .task i _ (.panic _ true) =>
    match s.tasks[i]? with
    | some (.updating u _ _) => decide (u.ID = id)
    | _ => false
  | _ => false

/-- Whether no action of the run, started in `s`, is such an update for `id`. -/
def Sys.clean (fs : Paths) (uploadDir : String) (id : Int) : Sys → List Action → Bool
  | _, [] => true
  | s, a :: actions =>
    !a.overwrites s id && Sys.clean fs uploadDir id (s.next fs uploadDir a) actions

/-- What every run maintains: the counter bounds the identifiers of the rows
and of the goroutines still running, no two running goroutines carry the
same identifier, and the record of a goroutine whose body still runs is
`pending`. -/
structure Sys.Inv (s : Sys) : Prop where
  rowsBounded : ∀ u ∈ s.db.rows, u.ID ≤ s.db.lastID
  tasksBounded : ∀ t ∈ s.tasks, ∀ k, t.liveID = some k → k ≤ s.db.lastID
  distinct : ∀ (i j : Nat) (ti tj : TaskState) (k : Int), s.tasks[i]? = some ti →
    s.tasks[j]? = some tj → ti.liveID = some k → tj.liveID = some k → i = j
  pending : ∀ t ∈ s.tasks, ∀ k, t.bodyID = some k →
    ∀ u ∈ s.db.rows, u.ID = k → u.Status = "pending"

/-- The record `id` is still `pending` while a goroutine that carries `id`
runs, its deferred function included. -/
def Sys.Untouched (s : Sys) (id : Int) : Prop :=
  ∀ t ∈ s.tasks, t.liveID = some id → ∀ u ∈ s.db.rows, u.ID = id → u.Status = "pending"

/-- An upload is accepted, its move succeeds, and the status update of the
body takes effect and then panics. -/
def sampleRun : List Action :=
  [.upload sampleEnv sampleUpload, .task 0 .ok .ok,
    .task 0 .ok (.panic (.error "runtime error: index out of range") true)]

/-- An upload is accepted, its move succeeds and its status update succeeds. -/
def sampleDoneRun : List Action :=
  [.upload sampleEnv sampleUpload, .task 0 .ok .ok, .task 0 .ok .ok]

/-- The row of `report.txt` once relocated. -/
def sampleDoneRow : Upload :=
  { storedUpload samplePaths "uploads" "report.txt" 7 1 with Status := "success" }

/-- The outcome handed to the second call of a goroutine: that of the
deferred function when the move panicked, else that of the body. -/
def TaskEnv.second (env : TaskEnv) : ExecOutcome :=
  match env.rename with
  | .panic _ => env.recovery
  | _ => env.update

/-- The state a goroutine ends in, for its exit. -/
def TaskExit.state : TaskExit → TaskState
  | .returned => .returned
  | .crashed v => .crashed v

/-- An upload is accepted, its move panics and the deferred function marks
the record. -/
def sampleRecoveredRun : List Action :=
  [.upload sampleEnv sampleUpload, .task 0 sampleRecoveredEnv.rename .ok,
    .task 0 .ok sampleRecoveredEnv.recovery]

/-- The row of `report.txt` once a recovered panic marked it. -/
def sampleFailedRow : Upload :=
  { storedUpload samplePaths "uploads" "report.txt" 7 1 with
    Status := "failed",
    ErrorMessage := "Panic: runtime error: invalid memory address or nil pointer dereference" }

/-! ## Method, form and query checks -/

/-- C10: on each of the three routes a request with a non-matching method is
answered 405 whatever its parameters and body, and the handler makes no call
into the store or the file system, leaves the store as it is and starts no
goroutine. -/
theorem method_not_allowed (fs : Paths) (uenv : UploadEnv) (senv : StatusEnv) (lenv : ListEnv)
    (db : DB) (uploadDir : String) (r : Request) :
    (r.Method ≠ "POST" →
      (UploadFileHandler fs uenv db uploadDir r).w.status = some 405 ∧
      (UploadFileHandler fs uenv db uploadDir r).calls = [] ∧
      (UploadFileHandler fs uenv db uploadDir r).db = db ∧
      (UploadFileHandler fs uenv db uploadDir r).task = none) ∧
    (r.Method ≠ "GET" →
      (GetUploadStatusHandler senv db r).w.status = some 405 ∧
      (GetUploadStatusHandler senv db r).calls = [] ∧
      (GetUploadStatusHandler senv db r).db = db ∧
      (ListFilesHandler fs lenv uploadDir r).1.status = some 405 ∧
      (ListFilesHandler fs lenv uploadDir r).2 = []) := by
  refine ⟨fun h => ?_, fun h => ?_⟩
  · simp [UploadFileHandler, h, httpError, ResponseWriter.Write, ResponseWriter.WriteHeader,
      ResponseWriter.new]
  · simp [GetUploadStatusHandler, ListFilesHandler, h, httpError, ResponseWriter.Write,
      ResponseWriter.WriteHeader, ResponseWriter.new]

/-- C10 at a `DELETE` request carrying both a file and an identifier. -/
theorem method_not_allowed_witness :
    (sampleDelete.Method ≠ "POST" ∧ sampleDelete.Method ≠ "GET") ∧
    (UploadFileHandler samplePaths sampleEnv DB.empty "uploads" sampleDelete).w.status = some 405 ∧
    (GetUploadStatusHandler sampleStatusEnv DB.empty sampleDelete).w.status = some 405 ∧
    (ListFilesHandler samplePaths sampleListEnv "uploads" sampleDelete).1.status = some 405 :=
  have h := method_not_allowed samplePaths sampleEnv sampleStatusEnv sampleListEnv DB.empty
    "uploads" sampleDelete
  ⟨⟨by decide, by decide⟩, (h.1 (by decide)).1, (h.2 (by decide)).1, (h.2 (by decide)).2.2.2.1⟩

/-- C9: a POST upload request whose form cannot be parsed, or whose form has
no field `file`, is answered 400; the handler makes no call at all (no file
is created, `insertUploadRecord` is not called), leaves the store as it is
and starts no goroutine. -/
theorem bad_form_rejected (fs : Paths) (env : UploadEnv) (db : DB) (uploadDir : String)
    (r : Request) (hm : r.Method = "POST")
    (hf : (∃ e, r.form = .error e) ∨
      (∃ form, r.form = .ok form ∧ ∀ kv ∈ form, kv.1 ≠ "file")) :
    (UploadFileHandler fs env db uploadDir r).w.status = some 400 ∧
    (UploadFileHandler fs env db uploadDir r).calls = [] ∧
    (UploadFileHandler fs env db uploadDir r).db = db ∧
    (UploadFileHandler fs env db uploadDir r).task = none := by
  rcases hf with ⟨e, he⟩ | ⟨form, hform, hno⟩
  · simp [UploadFileHandler, hm, he, httpError, ResponseWriter.Write,
      ResponseWriter.WriteHeader, ResponseWriter.new]
  · have hfind : (form.find? fun kv => decide (kv.1 = "file")) = none := by
      rw [List.find?_eq_none]
      intro kv hkv
      simpa using hno kv hkv
    simp [UploadFileHandler, hm, hform, FormFile, hfind, httpError, ResponseWriter.Write,
      ResponseWriter.WriteHeader, ResponseWriter.new]

/-- C9 at a form that has a file part under another field name. -/
theorem bad_form_rejected_witness :
    sampleNoFile.Method = "POST" ∧
    (UploadFileHandler samplePaths sampleEnv DB.empty "uploads" sampleNoFile).w.status = some 400 ∧
    (UploadFileHandler samplePaths sampleEnv DB.empty "uploads" sampleNoFile).calls = [] ∧
    (UploadFileHandler samplePaths sampleEnv DB.empty "uploads" sampleNoFile).db = DB.empty ∧
    (UploadFileHandler samplePaths sampleEnv DB.empty "uploads" sampleNoFile).task = none :=
  ⟨rfl, bad_form_rejected samplePaths sampleEnv DB.empty "uploads" sampleNoFile rfl
    (Or.inr ⟨[("other", sampleHeader)], rfl, by decide⟩)⟩

/-- C8: a GET status request whose `uploadID` parameter is absent, empty, or
rejected by `strconv.Atoi` is answered 400 and `getUploadByID` is not called. -/
theorem bad_upload_id_rejected (env : StatusEnv) (db : DB) (r : Request) (hm : r.Method = "GET")
    (hq : (∀ kv ∈ r.query, kv.1 ≠ "uploadID") ∨ r.queryGet "uploadID" = "" ∨
      (∃ e, Atoi (r.queryGet "uploadID") = .error e)) :
    (GetUploadStatusHandler env db r).w.status = some 400 ∧
    (GetUploadStatusHandler env db r).calls = [] ∧
    (GetUploadStatusHandler env db r).db = db := by
  have hq2 : r.queryGet "uploadID" = "" ∨ (∃ e, Atoi (r.queryGet "uploadID") = .error e) := by
    rcases hq with habsent | hq
    · left
      have hfind : (r.query.find? fun kv => decide (kv.1 = "uploadID")) = none := by
        rw [List.find?_eq_none]
        intro kv hkv
        simpa using habsent kv hkv
      simp [Request.queryGet, hfind]
    · exact hq
  rcases hq2 with hempty | ⟨e, he⟩
  · simp [GetUploadStatusHandler, hm, hempty, httpError, ResponseWriter.Write,
      ResponseWriter.WriteHeader, ResponseWriter.new]
  · by_cases hempty : r.queryGet "uploadID" = ""
    · simp [GetUploadStatusHandler, hm, hempty, httpError, ResponseWriter.Write,
        ResponseWriter.WriteHeader, ResponseWriter.new]
    · simp [GetUploadStatusHandler, hm, hempty, he, httpError, ResponseWriter.Write,
        ResponseWriter.WriteHeader, ResponseWriter.new]

/-- C8 at the identifier text `12a`. -/
theorem bad_upload_id_rejected_witness :
    sampleBadStatus.Method = "GET" ∧
    (∃ e, Atoi (sampleBadStatus.queryGet "uploadID") = .error e) ∧
    (GetUploadStatusHandler sampleStatusEnv DB.empty sampleBadStatus).w.status = some 400 ∧
    (GetUploadStatusHandler sampleStatusEnv DB.empty sampleBadStatus).calls = [] :=
  have h := bad_upload_id_rejected sampleStatusEnv DB.empty sampleBadStatus rfl
    (Or.inr (Or.inr ⟨_, rfl⟩))
  ⟨rfl, ⟨_, rfl⟩, h.1, h.2.1⟩

/-! ## Status lookup -/

/-- A query for an identifier that no row carries finds nothing. -/
theorem queryRow_absent (db : DB) (n : Int) (h : ∀ u ∈ db.rows, u.ID ≠ n) :
    db.queryRow n = none := by
  unfold DB.queryRow
  rw [List.find?_eq_none]
  intro u hu
  simpa using h u hu

/-- The status handler answers 500 only after a lookup that failed with an
error other than `sql.ErrNoRows`. -/
theorem status_500_only_on_fault (env : StatusEnv) (db : DB) (r : Request)
    (h : (GetUploadStatusHandler env db r).w.status = some 500) :
    ∃ n e, Atoi (r.queryGet "uploadID") = .ok n ∧
      getUploadByID env.fault db n = .error (.other e) := by
  unfold GetUploadStatusHandler at h
  by_cases hm : r.Method = "GET"
  · by_cases hempty : r.queryGet "uploadID" = ""
    · simp [hm, hempty, httpError, ResponseWriter.Write, ResponseWriter.WriteHeader,
        ResponseWriter.new] at h
    · cases hA : Atoi (r.queryGet "uploadID") with
      | error e =>
        simp [hm, hempty, hA, httpError, ResponseWriter.Write, ResponseWriter.WriteHeader,
          ResponseWriter.new] at h
      | ok n =>
        cases hG : getUploadByID env.fault db n with
        | error le =>
          cases le with
          | ErrNoRows =>
            simp [hm, hempty, hA, hG, httpError, ResponseWriter.Write,
              ResponseWriter.WriteHeader, ResponseWriter.new] at h
          | other e => exact ⟨n, e, rfl, hG⟩
        | ok u =>
          cases hE : env.encode <;>
            simp [hm, hempty, hA, hG, hE, encodeJSON, httpError, ResponseWriter.Write,
              ResponseWriter.WriteHeader, ResponseWriter.new] at h
  · simp [hm, httpError, ResponseWriter.Write, ResponseWriter.WriteHeader,
      ResponseWriter.new] at h

/-- C7: a GET status request whose `uploadID` parses as an integer that no
record of the store carries is never answered 200; it is answered 404 when
the lookup itself does not fail, and `getUploadByID` then reports
`sql.ErrNoRows`.  Whatever the request, 500 is answered only when the lookup
failed with an error other than `sql.ErrNoRows`. -/
theorem unknown_id_not_found (env : StatusEnv) (db : DB) (r : Request) (n : Int)
    (hm : r.Method = "GET") (hn : Atoi (r.queryGet "uploadID") = .ok n)
    (habsent : ∀ u ∈ db.rows, u.ID ≠ n) :
    (GetUploadStatusHandler env db r).w.status ≠ some 200 ∧
    (env.fault = none →
      getUploadByID env.fault db n = .error .ErrNoRows ∧
      (GetUploadStatusHandler env db r).w.status = some 404) ∧
    ((GetUploadStatusHandler env db r).w.status = some 404 ∨
      ((GetUploadStatusHandler env db r).w.status = some 500 ∧ env.fault ≠ none)) ∧
    (∀ (env2 : StatusEnv) (db2 : DB) (r2 : Request),
      (GetUploadStatusHandler env2 db2 r2).w.status = some 500 →
      ∃ m e, Atoi (r2.queryGet "uploadID") = .ok m ∧
        getUploadByID env2.fault db2 m = .error (.other e)) := by
  have hne : r.queryGet "uploadID" ≠ "" := by
    intro h0
    rw [h0] at hn
    exact absurd hn (by simp [Atoi, splitSign])
  have hq := queryRow_absent db n habsent
  refine ⟨?_, ?_, ?_, fun env2 db2 r2 h => status_500_only_on_fault env2 db2 r2 h⟩
  · cases hF : env.fault <;>
      simp [GetUploadStatusHandler, hm, hne, hn, getUploadByID, hq, hF, httpError,
        ResponseWriter.Write, ResponseWriter.WriteHeader, ResponseWriter.new]
  · intro hF
    simp [GetUploadStatusHandler, hm, hne, hn, getUploadByID, hq, hF, httpError,
      ResponseWriter.Write, ResponseWriter.WriteHeader, ResponseWriter.new]
  · cases hF : env.fault <;>
      simp [GetUploadStatusHandler, hm, hne, hn, getUploadByID, hq, hF, httpError,
        ResponseWriter.Write, ResponseWriter.WriteHeader, ResponseWriter.new]

/-- C7 at identifier 99999 on an empty store. -/
theorem unknown_id_not_found_witness :
    sampleStatus.Method = "GET" ∧ Atoi (sampleStatus.queryGet "uploadID") = .ok 99999 ∧
    (∀ u ∈ DB.empty.rows, u.ID ≠ 99999) ∧
    (GetUploadStatusHandler sampleStatusEnv DB.empty sampleStatus).w.status = some 404 :=
  ⟨rfl, rfl, by simp [DB.empty],
    ((unknown_id_not_found sampleStatusEnv DB.empty sampleStatus 99999 rfl rfl
      (by simp [DB.empty])).2.1 rfl).2⟩

/-! ## Accepting an upload -/

/-- The three ways `UploadFileHandler` can end: rejected before the `INSERT`
took effect, failed after it took effect, or accepted. -/
theorem UploadFileHandler_cases (fs : Paths) (env : UploadEnv) (db : DB) (uploadDir : String)
    (r : Request) :
    ((UploadFileHandler fs env db uploadDir r).db = db ∧
      (UploadFileHandler fs env db uploadDir r).task = none ∧
      (UploadFileHandler fs env db uploadDir r).w.status ≠ some 201) ∨
    (∃ filename,
      (UploadFileHandler fs env db uploadDir r).db =
        db.execInsert env.now filename (fs.Join fs.TempDir filename)
          (fs.Join uploadDir filename) "pending" ∧
      (UploadFileHandler fs env db uploadDir r).task = none ∧
      (UploadFileHandler fs env db uploadDir r).w.status ≠ some 201) ∨
    (∃ form header, r.Method = "POST" ∧ r.form = .ok form ∧
      FormFile form "file" = .ok header ∧ env.create = none ∧ env.copy = none ∧
      env.insert = .ok ∧
      UploadFileHandler fs env db uploadDir r =
        { w := { status := some 201, body := [.text (responseMessage (db.lastID + 1))] },
          db := db.execInsert env.now header.Filename (fs.Join fs.TempDir header.Filename)
            (fs.Join uploadDir header.Filename) "pending",
          calls := [Call.osCreate (fs.Join fs.TempDir header.Filename),
            Call.ioCopy (fs.Join fs.TempDir header.Filename) header.content,
            Call.insertUploadRecord (newUpload fs uploadDir header.Filename),
            Call.go { newUpload fs uploadDir header.Filename with ID := db.lastID + 1 }],
          task := some { newUpload fs uploadDir header.Filename with ID := db.lastID + 1 } }) := by
  by_cases hm : r.Method = "POST"
  · cases hform : r.form with
    | error e =>
      left
      simp [UploadFileHandler, hm, hform, httpError, ResponseWriter.Write,
        ResponseWriter.WriteHeader, ResponseWriter.new]
    | ok form =>
      cases hfile : FormFile form "file" with
      | error e =>
        left
        simp [UploadFileHandler, hm, hform, hfile, httpError, ResponseWriter.Write,
          ResponseWriter.WriteHeader, ResponseWriter.new]
      | ok header =>
        cases hc : env.create with
        | some e =>
          left
          simp [UploadFileHandler, hm, hform, hfile, hc, httpError, ResponseWriter.Write,
            ResponseWriter.WriteHeader, ResponseWriter.new]
        | none =>
          cases hcp : env.copy with
          | some e =>
            left
            simp [UploadFileHandler, hm, hform, hfile, hc, hcp, httpError,
              ResponseWriter.Write, ResponseWriter.WriteHeader, ResponseWriter.new]
          | none =>
            cases hi : env.insert with
            | execErr e =>
              left
              simp [UploadFileHandler, hm, hform, hfile, hc, hcp, hi, insertUploadRecord,
                httpError, ResponseWriter.Write, ResponseWriter.WriteHeader,
                ResponseWriter.new]
            | lastInsertIdErr e =>
              right; left
              refine ⟨header.Filename, ?_⟩
              simp [UploadFileHandler, hm, hform, hfile, hc, hcp, hi, insertUploadRecord,
                httpError, ResponseWriter.Write, ResponseWriter.WriteHeader,
                ResponseWriter.new]
            | ok =>
              right; right
              refine ⟨form, header, hm, rfl, hfile, rfl, rfl, rfl, ?_⟩
              simp [UploadFileHandler, hm, hform, hfile, hc, hcp, hi, insertUploadRecord,
                newUpload, ResponseWriter.Write, ResponseWriter.WriteHeader,
                ResponseWriter.new]
  · left
    simp [UploadFileHandler, hm, httpError, ResponseWriter.Write, ResponseWriter.WriteHeader,
      ResponseWriter.new]

/-- A status update for another identifier does not change what a query finds. -/
theorem queryRow_execUpdate_ne (db : DB) (status msg : String) (k id : Int) (h : k ≠ id) :
    ((db.execUpdate status msg k).queryRow id) = db.queryRow id := by
  unfold DB.queryRow DB.execUpdate
  simp only
  induction db.rows with
  | nil => rfl
  | cons u us ih =>
    simp only [List.map_cons, List.find?_cons]
    by_cases hk : u.ID = k
    · have hid : ¬ u.ID = id := fun h2 => h (hk ▸ h2)
      simp only [if_pos hk, hid, decide_False]
      exact ih
    · simp only [if_neg hk]
      cases decide (u.ID = id)
      · exact ih
      · rfl

/-- A query for the identifier of a row just inserted finds that row, when
the counter bounds the identifiers in the table. -/
theorem queryRow_execInsert (db : DB) (now : Nat) (f s d st : String)
    (hwf : ∀ u ∈ db.rows, u.ID ≤ db.lastID) :
    (db.execInsert now f s d st).queryRow (db.lastID + 1) =
      some { ID := db.lastID + 1, Filename := f, SourcePath := s, DestinationPath := d,
             UploadTime := now, Status := st, ErrorMessage := "" } := by
  unfold DB.queryRow DB.execInsert
  have hnone : (db.rows.find? fun u => decide (u.ID = db.lastID + 1)) = none := by
    rw [List.find?_eq_none]
    intro u hu
    have := hwf u hu
    simp only [decide_eq_true_eq]
    omega
  simp [List.find?_append, hnone]

/-- C5: when the handler answers 201, the request carried a file part whose
name is `filename`; the store assigned an identifier `id`, which the response
reports and the goroutine receives; the table has gained exactly the row
(`id`, `filename`, `Join(TempDir, filename)`, `Join(uploadDir, filename)`,
`pending`, empty error detail); and a lookup of `id`, also after status
updates of other identifiers, yields exactly that row.  The identifiers in
the table are assumed bounded by the counter of the store. -/
theorem accepted_upload_pending (fs : Paths) (env : UploadEnv) (db : DB) (uploadDir : String)
    (r : Request) (hwf : ∀ u ∈ db.rows, u.ID ≤ db.lastID)
    (h201 : (UploadFileHandler fs env db uploadDir r).w.status = some 201) :
    ∃ form header id, r.form = .ok form ∧ FormFile form "file" = .ok header ∧
      (insertUploadRecord env.insert env.now db (newUpload fs uploadDir header.Filename)).2
        = .ok id ∧
      (UploadFileHandler fs env db uploadDir r).w.body = [.text (responseMessage id)] ∧
      (UploadFileHandler fs env db uploadDir r).task =
        some { newUpload fs uploadDir header.Filename with ID := id } ∧
      (UploadFileHandler fs env db uploadDir r).db.rows =
        db.rows ++ [storedUpload fs uploadDir header.Filename env.now id] ∧
      getUploadByID none (UploadFileHandler fs env db uploadDir r).db id =
        .ok (storedUpload fs uploadDir header.Filename env.now id) ∧
      (∀ (k : Int) (status msg : String), k ≠ id →
        getUploadByID none
          ((UploadFileHandler fs env db uploadDir r).db.execUpdate status msg k) id =
          .ok (storedUpload fs uploadDir header.Filename env.now id)) := by
  rcases UploadFileHandler_cases fs env db uploadDir r with
    ⟨_, _, hne⟩ | ⟨_, _, _, hne⟩ | ⟨form, header, _, hform, hfile, _, _, hi, heq⟩
  · exact absurd h201 hne
  · exact absurd h201 hne
  · have hq := queryRow_execInsert db env.now header.Filename (fs.Join fs.TempDir header.Filename)
      (fs.Join uploadDir header.Filename) "pending" hwf
    refine ⟨form, header, db.lastID + 1, hform, hfile, ?_, ?_, ?_, ?_, ?_, ?_⟩
    · simp [insertUploadRecord, hi]
    · rw [heq]
    · rw [heq]
    · rw [heq]; rfl
    · rw [heq]
      simp only [getUploadByID, hq]
      rfl
    · intro k status msg hk
      rw [heq]
      simp only [getUploadByID, queryRow_execUpdate_ne _ status msg k _ hk, hq]
      rfl

/-- C5 at the upload of `report.txt` into an empty store. -/
theorem accepted_upload_pending_witness :
    (∀ u ∈ DB.empty.rows, u.ID ≤ DB.empty.lastID) ∧
    (UploadFileHandler samplePaths sampleEnv DB.empty "uploads" sampleUpload).w.status = some 201 ∧
    (UploadFileHandler samplePaths sampleEnv DB.empty "uploads" sampleUpload).w.body =
      [.text (responseMessage 1)] ∧
    getUploadByID none (UploadFileHandler samplePaths sampleEnv DB.empty "uploads" sampleUpload).db 1 =
      .ok (storedUpload samplePaths "uploads" "report.txt" 7 1) := by
  have h := accepted_upload_pending samplePaths sampleEnv DB.empty "uploads" sampleUpload
    (by simp [DB.empty]) (by decide)
  obtain ⟨form, header, id, hform, hfile, hins, hbody, _, _, hget, _⟩ := h
  have hf : form = [("file", sampleHeader)] := by
    simp only [sampleUpload, Except.ok.injEq] at hform
    exact hform.symm
  subst hf
  have hh : header = sampleHeader := by
    simp [FormFile, sampleHeader] at hfile
    exact hfile.symm
  subst hh
  have hid : id = 1 := by
    simp [insertUploadRecord, sampleEnv, DB.empty] at hins
    exact hins.symm
  subst hid
  exact ⟨by simp [DB.empty], by decide, hbody, hget⟩

/-- C6: when the handler reaches `insertUploadRecord` and it returns an
error, the handler answers 500, its calls are exactly `os.Create`, `io.Copy`,
`insertUploadRecord` and `os.Remove` of the staging path (so no status
update), it starts no goroutine, the outcome of `os.Remove` changes nothing
of this, and the store is left unchanged.  The result of the
go-sql-driver/mysql driver that `main` wires in reports the new identifier
without an error, so the outcome in which `LastInsertId` fails is left out. -/
theorem insert_failure_response (fs : Paths) (env : UploadEnv) (db : DB) (uploadDir : String)
    (r : Request) (form : List (String × FileHeader)) (header : FileHeader) (e : String)
    (hm : r.Method = "POST") (hform : r.form = .ok form)
    (hfile : FormFile form "file" = .ok header)
    (hc : env.create = none) (hcp : env.copy = none)
    (hdrv : ∀ e2, env.insert ≠ .lastInsertIdErr e2)
    (hins : (insertUploadRecord env.insert env.now db
      (newUpload fs uploadDir header.Filename)).2 = .error e) :
    (UploadFileHandler fs env db uploadDir r).w.status = some 500 ∧
    (UploadFileHandler fs env db uploadDir r).calls =
      [Call.osCreate (fs.Join fs.TempDir header.Filename),
        Call.ioCopy (fs.Join fs.TempDir header.Filename) header.content,
        Call.insertUploadRecord (newUpload fs uploadDir header.Filename),
        Call.osRemove (fs.Join fs.TempDir header.Filename)] ∧
    (UploadFileHandler fs env db uploadDir r).task = none ∧
    (∀ rm : Option String,
      UploadFileHandler fs { env with remove := rm } db uploadDir r =
        UploadFileHandler fs env db uploadDir r) ∧
    (UploadFileHandler fs env db uploadDir r).db = db := by
  cases hi : env.insert with
  | ok => simp [insertUploadRecord, hi] at hins
  | execErr e2 =>
    simp [UploadFileHandler, hm, hform, hfile, hc, hcp, hi, insertUploadRecord, newUpload,
      httpError, ResponseWriter.Write, ResponseWriter.WriteHeader, ResponseWriter.new]
  | lastInsertIdErr e2 => exact absurd hi (hdrv e2)

/-- C6 at an upload whose `INSERT` is refused by the store. -/
theorem insert_failure_response_witness :
    (insertUploadRecord (InsertOutcome.execErr "connection refused") 7 DB.empty
      (newUpload samplePaths "uploads" sampleHeader.Filename)).2 = .error "connection refused" ∧
    (UploadFileHandler samplePaths { sampleEnv with insert := .execErr "connection refused" }
      DB.empty "uploads" sampleUpload).w.status = some 500 ∧
    (UploadFileHandler samplePaths { sampleEnv with insert := .execErr "connection refused" }
      DB.empty "uploads" sampleUpload).task = none ∧
    (UploadFileHandler samplePaths { sampleEnv with insert := .execErr "connection refused" }
      DB.empty "uploads" sampleUpload).db = DB.empty :=
  have h := insert_failure_response samplePaths
    { sampleEnv with insert := .execErr "connection refused" } DB.empty "uploads" sampleUpload
    [("file", sampleHeader)] sampleHeader "connection refused" rfl rfl rfl rfl rfl
    (fun e2 h2 => by cases h2) rfl
  ⟨rfl, h.1, h.2.2.1, h.2.2.2.2⟩

/-! ## The relocation goroutine -/

/-- After a status update of identifier `k`, every row carrying `k` has the
status and error detail written. -/
theorem execUpdate_rows (db : DB) (status msg : String) (k : Int) :
    ∀ u ∈ (db.execUpdate status msg k).rows, u.ID = k → u.Status = status ∧ u.ErrorMessage = msg := by
  intro u hu hk
  simp only [DB.execUpdate, List.mem_map] at hu
  obtain ⟨u0, _, rfl⟩ := hu
  by_cases h0 : u0.ID = k
  · simp [h0]
  · simp only [if_neg h0] at hk
    exact absurd hk h0

/-- A query for identifier `k` after a status update of `k` finds the row it
found before, with the status and error detail written. -/
theorem queryRow_execUpdate_self (db : DB) (status msg : String) (k : Int) :
    (db.execUpdate status msg k).queryRow k =
      (db.queryRow k).map fun u => { u with Status := status, ErrorMessage := msg } := by
  unfold DB.queryRow DB.execUpdate
  simp only
  induction db.rows with
  | nil => rfl
  | cons u us ih =>
    simp only [List.map_cons, List.find?_cons]
    by_cases hk : u.ID = k
    · subst hk
      simp
    · have hd : decide (u.ID = k) = false := by simp [hk]
      simp only [if_neg hk, hd]
      exact ih

/-- The text written by the deferred function is never empty. -/
theorem panic_message_ne_empty (r : PanicValue) : "Panic: " ++ panicError r ≠ "" := by
  intro h
  have hl := congrArg String.length h
  rw [String.length_append] at hl
  have h7 : "Panic: ".length = 7 := by decide
  have h0 : "".length = 0 := by decide
  omega

/-- The text of a `*LinkError` is never empty. -/
theorem linkError_ne_empty (e : LinkError) : e.Error ≠ "" := by
  intro h
  have hl := congrArg String.length h
  simp only [LinkError.Error, String.length_append] at hl
  have h1 : " ".length = 1 := by decide
  have h0 : "".length = 0 := by decide
  omega

/-- C2: the goroutine started for an accepted upload carries the identifier
`insertUploadRecord` returned and the staging and destination paths of the
record; whatever the store holds when it runs, it calls `moveFile` exactly
once, first, on those paths; when `moveFile` returns no error its next call
is `updateUploadStatus(id, "success", "")`, and when `moveFile` returns an
error `e` its next call is `updateUploadStatus(id, "failed", e.Error())`; it
makes no further call unless that status update panics, and when the update
succeeds the store holds its effect. -/
theorem single_move_and_outcome (fs : Paths) (uenv : UploadEnv) (db0 : DB) (uploadDir : String)
    (r : Request) (upload : Upload)
    (htask : (UploadFileHandler fs uenv db0 uploadDir r).task = some upload)
    (env : TaskEnv) (db : DB) :
    (∃ filename,
      (insertUploadRecord uenv.insert uenv.now db0 (newUpload fs uploadDir filename)).2 =
        .ok upload.ID ∧
      upload = { newUpload fs uploadDir filename with ID := upload.ID }) ∧
    (relocationTask env db upload).calls.filter Call.isMove =
      [Call.moveFile upload.SourcePath upload.DestinationPath] ∧
    (relocationTask env db upload).calls.head? =
      some (Call.moveFile upload.SourcePath upload.DestinationPath) ∧
    (moveFile env.rename upload.SourcePath upload.DestinationPath = .val none →
      (relocationTask env db upload).calls[1]? =
        some (Call.updateUploadStatus upload.ID "success" "") ∧
      ((∀ v a, env.update ≠ .panic v a) → (relocationTask env db upload).calls.length = 2) ∧
      (env.update = .ok →
        (relocationTask env db upload).db = db.execUpdate "success" "" upload.ID)) ∧
    (∀ e, moveFile env.rename upload.SourcePath upload.DestinationPath = .val (some e) →
      (relocationTask env db upload).calls[1]? =
        some (Call.updateUploadStatus upload.ID "failed" e.Error) ∧
      ((∀ v a, env.update ≠ .panic v a) → (relocationTask env db upload).calls.length = 2) ∧
      (env.update = .ok →
        (relocationTask env db upload).db = db.execUpdate "failed" e.Error upload.ID)) := by
  refine ⟨?_, ?_, ?_, ?_, ?_⟩
  · rcases UploadFileHandler_cases fs uenv db0 uploadDir r with
      ⟨_, hnone, _⟩ | ⟨_, _, hnone, _⟩ | ⟨form, header, _, _, _, _, _, hi, heq⟩
    · rw [hnone] at htask; cases htask
    · rw [hnone] at htask; cases htask
    · rw [heq] at htask
      simp only [Option.some.injEq] at htask
      subst htask
      exact ⟨header.Filename, by simp [insertUploadRecord, hi], rfl⟩
  · cases hr : env.rename <;> cases hu : env.update <;> cases hrec : env.recovery <;>
      simp [relocationTask, recovered, moveFile, updateUploadStatus, hr, hu, hrec, Call.isMove]
  · cases hr : env.rename <;> cases hu : env.update <;> cases hrec : env.recovery <;>
      simp [relocationTask, recovered, moveFile, updateUploadStatus, hr, hu, hrec]
  · intro hmv
    cases hr : env.rename <;> simp [moveFile, hr] at hmv
    refine ⟨?_, ?_, ?_⟩
    · cases hu : env.update <;> cases hrec : env.recovery <;>
        simp [relocationTask, recovered, moveFile, updateUploadStatus, hr, hu, hrec]
    · intro hnp
      cases hu : env.update with
      | panic v a => exact absurd hu (hnp v a)
      | ok => simp [relocationTask, moveFile, updateUploadStatus, hr, hu]
      | err e2 => simp [relocationTask, moveFile, updateUploadStatus, hr, hu]
    · intro hu
      simp [relocationTask, moveFile, updateUploadStatus, hr, hu]
  · intro e hmv
    cases hr : env.rename <;> simp [moveFile, hr] at hmv
    subst hmv
    refine ⟨?_, ?_, ?_⟩
    · cases hu : env.update <;> cases hrec : env.recovery <;>
        simp [relocationTask, recovered, moveFile, updateUploadStatus, hr, hu, hrec]
    · intro hnp
      cases hu : env.update with
      | panic v a => exact absurd hu (hnp v a)
      | ok => simp [relocationTask, moveFile, updateUploadStatus, hr, hu]
      | err e2 => simp [relocationTask, moveFile, updateUploadStatus, hr, hu]
    · intro hu
      simp [relocationTask, moveFile, updateUploadStatus, hr, hu]

/-- C2 at the upload of `report.txt` whose move fails on a read-only
destination. -/
theorem single_move_and_outcome_witness :
    (UploadFileHandler samplePaths sampleEnv DB.empty "uploads" sampleUpload).task =
      some sampleTask ∧
    moveFile sampleMoveErrEnv.rename sampleTask.SourcePath sampleTask.DestinationPath =
      .val (some { Op := "rename", Old := "/tmp/report.txt", New := "uploads/report.txt",
                   Err := "permission denied" }) ∧
    (relocationTask sampleMoveErrEnv samplePendingDB sampleTask).calls =
      [Call.moveFile "/tmp/report.txt" "uploads/report.txt",
        Call.updateUploadStatus 1 "failed"
          "rename /tmp/report.txt uploads/report.txt: permission denied"] ∧
    (relocationTask sampleMoveErrEnv samplePendingDB sampleTask).calls[1]? =
      some (Call.updateUploadStatus sampleTask.ID "failed"
        (LinkError.Error { Op := "rename", Old := "/tmp/report.txt",
                           New := "uploads/report.txt", Err := "permission denied" })) :=
  ⟨by decide, by decide, by decide,
    ((single_move_and_outcome samplePaths sampleEnv DB.empty "uploads" sampleUpload sampleTask
      (by decide) sampleMoveErrEnv samplePendingDB).2.2.2.2 _ (by decide)).1⟩

/-- C1 as stated fails: the move panics, the panic is recovered, the status
update of the deferred function returns an error that is dropped, and the
goroutine returns with the record still `pending`. -/
theorem panic_can_leave_pending :
    (relocationTask sampleFaultEnv samplePendingDB sampleTask).exit = .returned ∧
    (relocationTask sampleFaultEnv samplePendingDB sampleTask).calls =
      [Call.moveFile "/tmp/report.txt" "uploads/report.txt",
        Call.updateUploadStatus 1 "failed"
          "Panic: runtime error: invalid memory address or nil pointer dereference"] ∧
    getUploadByID none samplePendingDB 1 =
      .ok (storedUpload samplePaths "uploads" "report.txt" 7 1) ∧
    getUploadByID none (relocationTask sampleFaultEnv samplePendingDB sampleTask).db 1 =
      .ok (storedUpload samplePaths "uploads" "report.txt" 7 1) ∧
    (storedUpload samplePaths "uploads" "report.txt" 7 1).Status = "pending" := by
  refine ⟨by decide, by decide, rfl, rfl, rfl⟩

/-- C1, amended: when `moveFile` or the status update of the body panics
with value `r`, the panic is recovered and the last call of the goroutine is
`updateUploadStatus(id, "failed", "Panic: " + text of r)`, whose text is not
empty; the goroutine returns unless that call panics too, and then the panic
is not recovered; when that call returns an error after a panic of the move
the store is as before; and when that call succeeds, every row carrying the
identifier is `failed` with that text, and a lookup of the identifier finds
the row it found before with exactly this status and error detail. -/
theorem panic_recovered (env : TaskEnv) (db : DB) (upload : Upload) (r : PanicValue)
    (hp : env.rename = .panic r ∨
      ((env.rename = .ok ∨ ∃ e, env.rename = .err e) ∧ ∃ applied, env.update = .panic r applied)) :
    (relocationTask env db upload).calls.getLast? =
      some (Call.updateUploadStatus upload.ID "failed" ("Panic: " ++ panicError r)) ∧
    "Panic: " ++ panicError r ≠ "" ∧
    ((∀ v a, env.recovery ≠ .panic v a) → (relocationTask env db upload).exit = .returned) ∧
    (∀ v a, env.recovery = .panic v a → (relocationTask env db upload).exit = .crashed v) ∧
    (∀ e, env.recovery = .err e → env.rename = .panic r →
      (relocationTask env db upload).db = db) ∧
    (env.recovery = .ok →
      (∀ u ∈ (relocationTask env db upload).db.rows, u.ID = upload.ID →
        u.Status = "failed" ∧ u.ErrorMessage = "Panic: " ++ panicError r) ∧
      (∀ u0, db.queryRow upload.ID = some u0 →
        (relocationTask env db upload).db.queryRow upload.ID =
          some { u0 with Status := "failed", ErrorMessage := "Panic: " ++ panicError r })) := by
  refine ⟨?_, panic_message_ne_empty r, ?_, ?_, ?_, ?_⟩
  · rcases hp with hr | ⟨hr | ⟨e, hr⟩, a, hu⟩
    · cases hrec : env.recovery <;>
        simp [relocationTask, recovered, moveFile, updateUploadStatus, hr, hrec]
    · cases hrec : env.recovery <;>
        simp [relocationTask, recovered, moveFile, updateUploadStatus, hr, hu, hrec]
    · cases hrec : env.recovery <;>
        simp [relocationTask, recovered, moveFile, updateUploadStatus, hr, hu, hrec]
  · intro hnp
    cases hrec : env.recovery with
    | panic v a => exact absurd hrec (hnp v a)
    | ok =>
      rcases hp with hr | ⟨hr | ⟨e, hr⟩, a, hu⟩
      · simp [relocationTask, recovered, moveFile, updateUploadStatus, hr, hrec]
      · simp [relocationTask, recovered, moveFile, updateUploadStatus, hr, hu, hrec]
      · simp [relocationTask, recovered, moveFile, updateUploadStatus, hr, hu, hrec]
    | err e2 =>
      rcases hp with hr | ⟨hr | ⟨e, hr⟩, a, hu⟩
      · simp [relocationTask, recovered, moveFile, updateUploadStatus, hr, hrec]
      · simp [relocationTask, recovered, moveFile, updateUploadStatus, hr, hu, hrec]
      · simp [relocationTask, recovered, moveFile, updateUploadStatus, hr, hu, hrec]
  · intro v a hrec
    rcases hp with hr | ⟨hr | ⟨e, hr⟩, a2, hu⟩
    · cases a <;> simp [relocationTask, recovered, moveFile, updateUploadStatus, hr, hrec]
    · cases a <;> cases a2 <;>
        simp [relocationTask, recovered, moveFile, updateUploadStatus, hr, hu, hrec]
    · cases a <;> cases a2 <;>
        simp [relocationTask, recovered, moveFile, updateUploadStatus, hr, hu, hrec]
  · intro e hrec hr
    simp [relocationTask, recovered, moveFile, updateUploadStatus, hr, hrec]
  · intro hrec
    have key : ∃ db1 : DB, (db1 = db ∨ ∃ st msg, db1 = db.execUpdate st msg upload.ID) ∧
        (relocationTask env db upload).db =
          db1.execUpdate "failed" ("Panic: " ++ panicError r) upload.ID := by
      rcases hp with hr | ⟨hr | ⟨e, hr⟩, a, hu⟩
      · exact ⟨db, Or.inl rfl, by
          simp [relocationTask, recovered, moveFile, updateUploadStatus, hr, hrec]⟩
      · cases a
        · exact ⟨db, Or.inl rfl, by
            simp [relocationTask, recovered, moveFile, updateUploadStatus, hr, hu, hrec]⟩
        · exact ⟨db.execUpdate "success" "" upload.ID, Or.inr ⟨_, _, rfl⟩, by
            simp [relocationTask, recovered, moveFile, updateUploadStatus, hr, hu, hrec]⟩
      · cases a
        · exact ⟨db, Or.inl rfl, by
            simp [relocationTask, recovered, moveFile, updateUploadStatus, hr, hu, hrec]⟩
        · exact ⟨db.execUpdate "failed"
            (LinkError.Error { Op := "rename", Old := upload.SourcePath,
                               New := upload.DestinationPath, Err := e }) upload.ID,
            Or.inr ⟨_, _, rfl⟩, by
            simp [relocationTask, recovered, moveFile, updateUploadStatus, hr, hu, hrec]⟩
    obtain ⟨db1, hdb1, hres⟩ := key
    refine ⟨?_, ?_⟩
    · rw [hres]
      exact execUpdate_rows db1 _ _ _
    · intro u0 hq
      rw [hres, queryRow_execUpdate_self]
      rcases hdb1 with rfl | ⟨st, msg, rfl⟩
      · rw [hq]; rfl
      · rw [queryRow_execUpdate_self, hq]; rfl

/-- C1, amended, at a move that panics while the store accepts the status
update of the deferred function. -/
theorem panic_recovered_witness :
    sampleRecoveredEnv.rename =
      .panic (.error "runtime error: invalid memory address or nil pointer dereference") ∧
    sampleRecoveredEnv.recovery = .ok ∧
    samplePendingDB.queryRow sampleTask.ID =
      some (storedUpload samplePaths "uploads" "report.txt" 7 1) ∧
    (relocationTask sampleRecoveredEnv samplePendingDB sampleTask).db.queryRow sampleTask.ID =
      some { storedUpload samplePaths "uploads" "report.txt" 7 1 with
        Status := "failed",
        ErrorMessage := "Panic: " ++ panicError
          (.error "runtime error: invalid memory address or nil pointer dereference") } :=
  ⟨rfl, rfl, rfl,
    ((panic_recovered sampleRecoveredEnv samplePendingDB sampleTask
      (.error "runtime error: invalid memory address or nil pointer dereference")
      (Or.inl rfl)).2.2.2.2.2 rfl).2 _ rfl⟩

/-! ## Invariants of the running system -/

/-- A status update with a good pair keeps every row a good pair. -/
theorem good_execUpdate (db : DB) (status msg : String) (k : Int) (hp : GoodPair status msg)
    (h : ∀ u ∈ db.rows, GoodPair u.Status u.ErrorMessage) :
    ∀ u ∈ (db.execUpdate status msg k).rows, GoodPair u.Status u.ErrorMessage := by
  intro u hu
  simp only [DB.execUpdate, List.mem_map] at hu
  obtain ⟨u0, hu0, rfl⟩ := hu
  by_cases hk : u0.ID = k
  · simpa [hk] using hp
  · simpa [hk] using h u0 hu0

/-- The pair written on success. -/
theorem goodPair_success : GoodPair "success" "" :=
  ⟨⟨fun h => absurd rfl h, fun h => absurd h (by decide)⟩, Or.inr (Or.inl rfl)⟩

/-- The pair a new record starts with. -/
theorem goodPair_pending : GoodPair "pending" "" :=
  ⟨⟨fun h => absurd rfl h, fun h => absurd h (by decide)⟩, Or.inl rfl⟩

/-- A non-empty text with `failed` is a good pair. -/
theorem goodPair_failed (msg : String) (h : msg ≠ "") : GoodPair "failed" msg :=
  ⟨⟨fun _ => rfl, fun _ => h⟩, Or.inr (Or.inr rfl)⟩

/-- An `INSERT` of a pending record keeps every row a good pair. -/
theorem good_execInsert (db : DB) (now : Nat) (f src dst : String)
    (h : ∀ u ∈ db.rows, GoodPair u.Status u.ErrorMessage) :
    ∀ u ∈ (db.execInsert now f src dst "pending").rows, GoodPair u.Status u.ErrorMessage := by
  intro u hu
  simp only [DB.execInsert, List.mem_append, List.mem_singleton] at hu
  rcases hu with hu | rfl
  · exact h u hu
  · exact goodPair_pending

/-- One call of a goroutine keeps the rows good pairs, and the update it is
then about to issue is a good pair too. -/
theorem step_good (ro : RenameOutcome) (eo : ExecOutcome) (db : DB) (t : TaskState)
    (hrows : ∀ u ∈ db.rows, GoodPair u.Status u.ErrorMessage)
    (ht : ∀ upload status msg, t = .updating upload status msg →
      GoodPair status msg ∧ status ≠ "pending") :
    (∀ u ∈ (t.step ro eo db).1.rows, GoodPair u.Status u.ErrorMessage) ∧
    (∀ upload status msg, (t.step ro eo db).2 = .updating upload status msg →
      GoodPair status msg ∧ status ≠ "pending") := by
  cases t with
  | moving upload =>
    cases ro with
    | ok =>
      refine ⟨by simpa [TaskState.step, moveFile] using hrows, ?_⟩
      intro up st msg h
      simp only [TaskState.step, moveFile, TaskState.updating.injEq] at h
      obtain ⟨_, rfl, rfl⟩ := h
      exact ⟨goodPair_success, by decide⟩
    | err errno =>
      refine ⟨by simpa [TaskState.step, moveFile] using hrows, ?_⟩
      intro up st msg h
      simp only [TaskState.step, moveFile, TaskState.updating.injEq] at h
      obtain ⟨_, rfl, rfl⟩ := h
      exact ⟨goodPair_failed _ (linkError_ne_empty _), by decide⟩
    | panic v =>
      refine ⟨by simpa [TaskState.step, moveFile] using hrows, ?_⟩
      intro up st msg h
      simp [TaskState.step, moveFile] at h
  | updating upload status msg =>
    have hp := (ht upload status msg rfl).1
    cases eo with
    | ok =>
      refine ⟨?_, by simp [TaskState.step, updateUploadStatus]⟩
      simpa [TaskState.step, updateUploadStatus] using good_execUpdate db _ _ _ hp hrows
    | err e =>
      exact ⟨by simpa [TaskState.step, updateUploadStatus] using hrows,
        by simp [TaskState.step, updateUploadStatus]⟩
    | panic v applied =>
      refine ⟨?_, by simp [TaskState.step, updateUploadStatus]⟩
      cases applied
      · simpa [TaskState.step, updateUploadStatus] using hrows
      · simpa [TaskState.step, updateUploadStatus] using good_execUpdate db _ _ _ hp hrows
  | recovering upload r =>
    have hp := goodPair_failed _ (panic_message_ne_empty r)
    cases eo with
    | ok =>
      refine ⟨?_, by simp [TaskState.step, updateUploadStatus]⟩
      simpa [TaskState.step, updateUploadStatus] using good_execUpdate db _ _ _ hp hrows
    | err e =>
      exact ⟨by simpa [TaskState.step, updateUploadStatus] using hrows,
        by simp [TaskState.step, updateUploadStatus]⟩
    | panic v applied =>
      refine ⟨?_, by simp [TaskState.step, updateUploadStatus]⟩
      cases applied
      · simpa [TaskState.step, updateUploadStatus] using hrows
      · simpa [TaskState.step, updateUploadStatus] using good_execUpdate db _ _ _ hp hrows
  | returned => exact ⟨by simpa [TaskState.step] using hrows, by simp [TaskState.step]⟩
  | crashed v => exact ⟨by simpa [TaskState.step] using hrows, by simp [TaskState.step]⟩

/-- Every step of the system keeps it good. -/
theorem good_next (fs : Paths) (uploadDir : String) (s : Sys) (a : Action) (h : s.Good) :
    (s.next fs uploadDir a).Good := by
  obtain ⟨hrows, htasks⟩ := h
  cases a with
  | upload env r =>
    have htk : ∀ (l : List TaskState), (l = [] ∨ ∃ u, l = [TaskState.moving u]) →
        ∀ upload status msg, TaskState.updating upload status msg ∈ s.tasks ++ l →
          GoodPair status msg ∧ status ≠ "pending" := by
      intro l hl up st msg hmem
      rw [List.mem_append] at hmem
      rcases hmem with hmem | hmem
      · exact htasks up st msg hmem
      · rcases hl with rfl | ⟨u, rfl⟩
        · simp at hmem
        · simp at hmem
    rcases UploadFileHandler_cases fs env s.db uploadDir r with
      ⟨hdb, hnone, _⟩ | ⟨f, hdb, hnone, _⟩ | ⟨form, header, _, _, _, _, _, _, heq⟩
    · refine ⟨?_, ?_⟩
      · simpa [Sys.next, hdb] using hrows
      · simpa [Sys.next, hnone] using htk [] (Or.inl rfl)
    · refine ⟨?_, ?_⟩
      · simpa [Sys.next, hdb] using good_execInsert s.db _ _ _ _ hrows
      · simpa [Sys.next, hnone] using htk [] (Or.inl rfl)
    · refine ⟨?_, ?_⟩
      · simpa [Sys.next, heq] using good_execInsert s.db _ _ _ _ hrows
      · simpa [Sys.next, heq] using
          htk [TaskState.moving { newUpload fs uploadDir header.Filename with ID := s.db.lastID + 1 }]
            (Or.inr ⟨_, rfl⟩)
  | task i ro eo =>
    cases hi : s.tasks[i]? with
    | none => simpa [Sys.next, hi] using (⟨hrows, htasks⟩ : s.Good)
    | some t =>
      have hmem : t ∈ s.tasks := List.mem_iff_getElem?.mpr ⟨i, hi⟩
      have hst := step_good ro eo s.db t hrows
        (fun up st msg ht => htasks up st msg (ht ▸ hmem))
      refine ⟨?_, ?_⟩
      · simpa [Sys.next, hi] using hst.1
      · intro up st msg hin
        simp only [Sys.next, hi] at hin
        rcases List.mem_or_eq_of_mem_set hin with hin | hin
        · exact htasks up st msg hin
        · exact hst.2 up st msg hin.symm

/-- Every run from a good system ends in a good system. -/
theorem good_run (fs : Paths) (uploadDir : String) (actions : List Action) :
    ∀ s : Sys, s.Good → (Sys.run fs uploadDir s actions).Good := by
  induction actions with
  | nil => intro s h; exact h
  | cons a actions ih =>
    intro s h
    exact ih _ (good_next fs uploadDir s a h)

/-- The system is good at start. -/
theorem good_init : Sys.init.Good := by
  refine ⟨?_, ?_⟩
  · intro u hu; simp [Sys.init, DB.empty] at hu
  · intro up st msg hin; simp [Sys.init] at hin

/-- C3: in every state reached from the empty store by upload requests and
calls of the started goroutines, whatever the outcomes of the moves and
status updates and whatever the recovered panic values, the error detail of
each record is non-empty if and only if its status is `failed`. -/
theorem error_detail_iff_failed (fs : Paths) (uploadDir : String) (actions : List Action) :
    ∀ u ∈ (Sys.run fs uploadDir Sys.init actions).db.rows,
      (u.ErrorMessage ≠ "" ↔ u.Status = "failed") ∧
      (u.Status = "failed" → u.ErrorMessage ≠ "") ∧
      (u.Status = "pending" ∨ u.Status = "success" → u.ErrorMessage = "") := by
  intro u hu
  have hg := (good_run fs uploadDir actions Sys.init good_init).1 u hu
  refine ⟨hg.1, hg.1.mpr, ?_⟩
  intro hs
  by_contra hne
  have hf := hg.1.mp hne
  rcases hs with hs | hs <;> rw [hf] at hs <;> exact absurd hs (by decide)

/-! ## Status transitions -/

/-- One call of a goroutine leaves the store as it is, or applies the status
update of its body, or applies the status update of its deferred function. -/
theorem step_write (ro : RenameOutcome) (eo : ExecOutcome) (db : DB) (t : TaskState) :
    (t.step ro eo db).1 = db ∨
    (∃ upload status msg, t = .updating upload status msg ∧
      (t.step ro eo db).1 = db.execUpdate status msg upload.ID) ∨
    (∃ upload r, t = .recovering upload r ∧
      (t.step ro eo db).1 = db.execUpdate "failed" ("Panic: " ++ panicError r) upload.ID) := by
  cases t with
  | moving upload => left; cases ro <;> simp [TaskState.step, moveFile]
  | updating upload status msg =>
    cases eo with
    | ok => exact Or.inr (Or.inl ⟨upload, status, msg, rfl, by
        simp [TaskState.step, updateUploadStatus]⟩)
    | err e => left; simp [TaskState.step, updateUploadStatus]
    | panic v applied =>
      cases applied
      · left; simp [TaskState.step, updateUploadStatus]
      · exact Or.inr (Or.inl ⟨upload, status, msg, rfl, by
          simp [TaskState.step, updateUploadStatus]⟩)
  | recovering upload r =>
    cases eo with
    | ok => exact Or.inr (Or.inr ⟨upload, r, rfl, by
        simp [TaskState.step, updateUploadStatus]⟩)
    | err e => left; simp [TaskState.step, updateUploadStatus]
    | panic v applied =>
      cases applied
      · left; simp [TaskState.step, updateUploadStatus]
      · exact Or.inr (Or.inr ⟨upload, r, rfl, by
          simp [TaskState.step, updateUploadStatus]⟩)
  | returned => left; simp [TaskState.step]
  | crashed v => left; simp [TaskState.step]

/-- One call of a goroutine leaves the store as it is, or applies a status
update to the identifier the goroutine carries. -/
theorem step_db (ro : RenameOutcome) (eo : ExecOutcome) (db : DB) (t : TaskState) :
    (t.step ro eo db).1 = db ∨
    ∃ k status msg, t.liveID = some k ∧ (t.step ro eo db).1 = db.execUpdate status msg k := by
  rcases step_write ro eo db t with h | ⟨up, st, msg, rfl, h⟩ | ⟨up, r, rfl, h⟩
  · exact Or.inl h
  · exact Or.inr ⟨up.ID, st, msg, rfl, h⟩
  · exact Or.inr ⟨up.ID, _, _, rfl, h⟩

/-- A goroutine whose body runs is a running goroutine. -/
theorem bodyID_liveID (t : TaskState) (k : Int) (h : t.bodyID = some k) : t.liveID = some k := by
  cases t <;> simp [TaskState.bodyID, TaskState.liveID] at h ⊢
  · exact h
  · exact h

/-- A goroutine whose body still runs after a call has not touched the store
in that call, and its body ran before. -/
theorem step_bodyID (ro : RenameOutcome) (eo : ExecOutcome) (db : DB) (t : TaskState) (k : Int)
    (h : (t.step ro eo db).2.bodyID = some k) :
    t.bodyID = some k ∧ (t.step ro eo db).1 = db := by
  cases t with
  | moving upload =>
    cases ro <;> simp [TaskState.step, moveFile, TaskState.bodyID] at h ⊢
    · exact h
    · exact h
  | updating upload status msg =>
    cases eo <;> simp [TaskState.step, updateUploadStatus, TaskState.bodyID] at h
  | recovering upload r =>
    cases eo <;> simp [TaskState.step, updateUploadStatus, TaskState.bodyID] at h
  | returned => simp [TaskState.step, TaskState.bodyID] at h
  | crashed v => simp [TaskState.step, TaskState.bodyID] at h

/-- A goroutine keeps the identifier it carries until it ends. -/
theorem step_liveID (ro : RenameOutcome) (eo : ExecOutcome) (db : DB) (t : TaskState) (k : Int)
    (h : (t.step ro eo db).2.liveID = some k) : t.liveID = some k := by
  cases t with
  | moving upload => cases ro <;> simpa [TaskState.step, moveFile, TaskState.liveID] using h
  | updating upload status msg =>
    cases eo <;> simp [TaskState.step, updateUploadStatus, TaskState.liveID] at h ⊢
    exact h
  | recovering upload r =>
    cases eo <;> simp [TaskState.step, updateUploadStatus, TaskState.liveID] at h ⊢
  | returned => simp [TaskState.step, TaskState.liveID] at h
  | crashed v => simp [TaskState.step, TaskState.liveID] at h

/-- Unless it is a status update of the body that panics after taking effect,
a call that changes the store is the last call of its goroutine. -/
theorem step_last_write (ro : RenameOutcome) (eo : ExecOutcome) (db : DB) (t : TaskState)
    (hclean : ∀ upload status msg v, t = .updating upload status msg → eo ≠ .panic v true) :
    (t.step ro eo db).1 = db ∨ (t.step ro eo db).2.liveID = none := by
  cases t with
  | moving upload => left; cases ro <;> simp [TaskState.step, moveFile]
  | updating upload status msg =>
    cases eo with
    | ok => right; simp [TaskState.step, updateUploadStatus, TaskState.liveID]
    | err e => left; simp [TaskState.step, updateUploadStatus]
    | panic v applied =>
      cases applied
      · left; simp [TaskState.step, updateUploadStatus]
      · exact absurd rfl (hclean upload status msg v rfl)
  | recovering upload r =>
    right
    cases eo <;> simp [TaskState.step, updateUploadStatus, TaskState.liveID]
  | returned => left; simp [TaskState.step]
  | crashed v => left; simp [TaskState.step]

/-- A status update keeps the counter of the store. -/
theorem step_lastID (ro : RenameOutcome) (eo : ExecOutcome) (db : DB) (t : TaskState) :
    (t.step ro eo db).1.lastID = db.lastID := by
  cases t with
  | moving upload => cases ro <;> simp [TaskState.step, moveFile]
  | updating upload status msg =>
    cases eo with
    | ok => simp [TaskState.step, updateUploadStatus, DB.execUpdate]
    | err e => simp [TaskState.step, updateUploadStatus]
    | panic v applied => cases applied <;> simp [TaskState.step, updateUploadStatus, DB.execUpdate]
  | recovering upload r =>
    cases eo with
    | ok => simp [TaskState.step, updateUploadStatus, DB.execUpdate]
    | err e => simp [TaskState.step, updateUploadStatus]
    | panic v applied => cases applied <;> simp [TaskState.step, updateUploadStatus, DB.execUpdate]
  | returned => simp [TaskState.step]
  | crashed v => simp [TaskState.step]

/-- A row after a status update of `k` is a row from before, unchanged unless
it carries `k`, and with the same identifier. -/
theorem execUpdate_mem (db : DB) (status msg : String) (k : Int) :
    ∀ u ∈ (db.execUpdate status msg k).rows,
      ∃ u0 ∈ db.rows, u.ID = u0.ID ∧ (u0.ID ≠ k → u = u0) := by
  intro u hu
  simp only [DB.execUpdate, List.mem_map] at hu
  obtain ⟨u0, hu0, rfl⟩ := hu
  refine ⟨u0, hu0, ?_, ?_⟩
  · by_cases hk : u0.ID = k <;> simp [hk]
  · intro hk; simp [hk]

/-- The row at a position after a status update of `k`. -/
theorem execUpdate_getElem? (db : DB) (status msg : String) (k : Int) (i : Nat) (u : Upload)
    (h : db.rows[i]? = some u) :
    (db.execUpdate status msg k).rows[i]? =
      some (if u.ID = k then { u with Status := status, ErrorMessage := msg } else u) := by
  simp [DB.execUpdate, List.getElem?_map, h]

/-- A position of the table that holds a row is a valid index. -/
theorem lt_of_getElem? (l : List Upload) (i : Nat) (u : Upload) (h : l[i]? = some u) :
    i < l.length := by
  obtain ⟨hlt, _⟩ := List.getElem?_eq_some.mp h
  exact hlt

/-- One step of a good system keeps every row at its position, with its
identifier, file name, paths and upload time; the row is unchanged, or the
step is a call of the running goroutine that carries its identifier and
wrote the status and error detail of the body or of the deferred function. -/
theorem next_row (fs : Paths) (uploadDir : String) (s : Sys) (a : Action)
    (i : Nat) (u : Upload) (hu : s.db.rows[i]? = some u) :
    ∃ u2, (s.next fs uploadDir a).db.rows[i]? = some u2 ∧
      (u2.ID = u.ID ∧ u2.Filename = u.Filename ∧ u2.SourcePath = u.SourcePath ∧
        u2.DestinationPath = u.DestinationPath ∧ u2.UploadTime = u.UploadTime) ∧
      (u2 = u ∨ ∃ j ro eo t, a = .task j ro eo ∧ s.tasks[j]? = some t ∧
        ((∃ upload status msg, t = .updating upload status msg ∧ upload.ID = u.ID ∧
            u2 = { u with Status := status, ErrorMessage := msg }) ∨
          (∃ upload r, t = .recovering upload r ∧ upload.ID = u.ID ∧
            u2 = { u with Status := "failed", ErrorMessage := "Panic: " ++ panicError r }))) := by
  have hlt := lt_of_getElem? _ _ _ hu
  cases a with
  | upload env r =>
    refine ⟨u, ?_, ⟨rfl, rfl, rfl, rfl, rfl⟩, Or.inl rfl⟩
    rcases UploadFileHandler_cases fs env s.db uploadDir r with
      ⟨hdb, _, _⟩ | ⟨f, hdb, _, _⟩ | ⟨form, header, _, _, _, _, _, _, heq⟩
    · simpa [Sys.next, hdb] using hu
    · simp only [Sys.next, hdb, DB.execInsert]
      rw [List.getElem?_append_left hlt]
      exact hu
    · simp only [Sys.next, heq, DB.execInsert]
      rw [List.getElem?_append_left hlt]
      exact hu
  | task j ro eo =>
    cases hj : s.tasks[j]? with
    | none => exact ⟨u, by simpa [Sys.next, hj] using hu, ⟨rfl, rfl, rfl, rfl, rfl⟩, Or.inl rfl⟩
    | some t =>
      rcases step_write ro eo s.db t with hdb | ⟨up, st, msg, ht, hdb⟩ | ⟨up, r, ht, hdb⟩
      · exact ⟨u, by simpa [Sys.next, hj, hdb] using hu, ⟨rfl, rfl, rfl, rfl, rfl⟩, Or.inl rfl⟩
      · have hrow := execUpdate_getElem? s.db st msg up.ID i u hu
        by_cases hk : u.ID = up.ID
        · refine ⟨{ u with Status := st, ErrorMessage := msg }, ?_,
            ⟨rfl, rfl, rfl, rfl, rfl⟩,
            Or.inr ⟨j, ro, eo, t, rfl, hj, Or.inl ⟨up, st, msg, ht, hk.symm, rfl⟩⟩⟩
          simpa [Sys.next, hj, hdb, hk] using hrow
        · exact ⟨u, by simpa [Sys.next, hj, hdb, hk] using hrow,
            ⟨rfl, rfl, rfl, rfl, rfl⟩, Or.inl rfl⟩
      · have hrow := execUpdate_getElem? s.db "failed" ("Panic: " ++ panicError r) up.ID i u hu
        by_cases hk : u.ID = up.ID
        · refine ⟨{ u with Status := "failed", ErrorMessage := "Panic: " ++ panicError r }, ?_,
            ⟨rfl, rfl, rfl, rfl, rfl⟩,
            Or.inr ⟨j, ro, eo, t, rfl, hj, Or.inr ⟨up, r, ht, hk.symm, rfl⟩⟩⟩
          simpa [Sys.next, hj, hdb, hk] using hrow
        · exact ⟨u, by simpa [Sys.next, hj, hdb, hk] using hrow,
            ⟨rfl, rfl, rfl, rfl, rfl⟩, Or.inl rfl⟩

/-- After the goroutine at position `j` made a call, a running goroutine at
any position carried the same identifier before the call, and is the same
goroutine unless the position is `j`. -/
theorem set_liveID (tasks : List TaskState) (j : Nat) (t t2 : TaskState)
    (hj : tasks[j]? = some t) (hlive : ∀ k, t2.liveID = some k → t.liveID = some k)
    (idx : Nat) (x : TaskState) (k : Int) (hx : (tasks.set j t2)[idx]? = some x)
    (hk : x.liveID = some k) :
    ∃ y, tasks[idx]? = some y ∧ y.liveID = some k ∧ (idx ≠ j → x = y) ∧ (idx = j → x = t2) := by
  by_cases hidx : idx = j
  · subst hidx
    have hlt : idx < tasks.length := (List.getElem?_eq_some.mp hj).1
    rw [List.getElem?_set_self hlt] at hx
    simp only [Option.some.injEq] at hx
    subst hx
    exact ⟨t, hj, hlive k hk, fun h => absurd rfl h, fun _ => rfl⟩
  · rw [List.getElem?_set_ne (Ne.symm hidx)] at hx
    exact ⟨x, hx, hk, fun _ => rfl, fun h => absurd h hidx⟩

/-- Where a running goroutine sits after an upload started at most one more:
among the earlier ones, carrying an identifier the old counter bounds, or at
the end, carrying the new identifier. -/
theorem append_liveID (s : Sys) (hinv : s.Inv) (l : List TaskState)
    (hl : l = [] ∨ ∃ u : Upload, u.ID = s.db.lastID + 1 ∧ l = [TaskState.moving u])
    (idx : Nat) (x : TaskState) (k : Int) (hx : (s.tasks ++ l)[idx]? = some x)
    (hk : x.liveID = some k) :
    (s.tasks[idx]? = some x ∧ k ≤ s.db.lastID) ∨
    (idx = s.tasks.length ∧ k = s.db.lastID + 1) := by
  by_cases hlt : idx < s.tasks.length
  · rw [List.getElem?_append_left hlt] at hx
    exact Or.inl ⟨hx, hinv.tasksBounded x (List.mem_iff_getElem?.mpr ⟨idx, hx⟩) k hk⟩
  · rw [List.getElem?_append_right (Nat.le_of_not_lt hlt)] at hx
    rcases hl with rfl | ⟨u, hid, rfl⟩
    · simp at hx
    · right
      cases hd : idx - s.tasks.length with
      | zero =>
        rw [hd] at hx
        simp only [List.getElem?_cons_zero, Option.some.injEq] at hx
        subst hx
        simp only [TaskState.liveID, Option.some.injEq] at hk
        exact ⟨by omega, by omega⟩
      | succ n =>
        rw [hd] at hx
        simp at hx

/-- An `INSERT` of a pending record, with at most one goroutine started for
it, keeps the invariant. -/
theorem inv_insert (s : Sys) (hinv : s.Inv) (now : Nat) (f src dst : String)
    (l : List TaskState)
    (hl : l = [] ∨ ∃ u : Upload, u.ID = s.db.lastID + 1 ∧ l = [TaskState.moving u]) :
    Sys.Inv { db := s.db.execInsert now f src dst "pending", tasks := s.tasks ++ l } := by
  have hrows : ∀ u ∈ (s.db.execInsert now f src dst "pending").rows,
      (u ∈ s.db.rows ∧ u.ID ≤ s.db.lastID) ∨
      (u.ID = s.db.lastID + 1 ∧ u.Status = "pending") := by
    intro u hu
    simp only [DB.execInsert, List.mem_append, List.mem_singleton] at hu
    rcases hu with hu | rfl
    · exact Or.inl ⟨hu, hinv.rowsBounded u hu⟩
    · exact Or.inr ⟨rfl, rfl⟩
  have hlast : (s.db.execInsert now f src dst "pending").lastID = s.db.lastID + 1 := rfl
  refine ⟨?_, ?_, ?_, ?_⟩
  · intro u hu
    show u.ID ≤ (s.db.execInsert now f src dst "pending").lastID
    rw [hlast]
    rcases hrows u hu with ⟨_, h⟩ | ⟨h, _⟩ <;> omega
  · intro t ht k hk
    show k ≤ (s.db.execInsert now f src dst "pending").lastID
    rw [hlast]
    obtain ⟨idx, hidx⟩ := List.mem_iff_getElem?.mp ht
    rcases append_liveID s hinv l hl idx t k hidx hk with ⟨_, h⟩ | ⟨_, h⟩ <;> omega
  · intro i j ti tj k hi hj hki hkj
    rcases append_liveID s hinv l hl i ti k hi hki with ⟨hi2, hb⟩ | ⟨hi2, hb⟩ <;>
      rcases append_liveID s hinv l hl j tj k hj hkj with ⟨hj2, hb2⟩ | ⟨hj2, hb2⟩
    · exact hinv.distinct i j ti tj k hi2 hj2 hki hkj
    · omega
    · omega
    · omega
  · intro t ht k hk u hu hid
    rcases hrows u hu with ⟨hu2, hb⟩ | ⟨_, hst⟩
    · obtain ⟨idx, hidx⟩ := List.mem_iff_getElem?.mp ht
      rcases append_liveID s hinv l hl idx t k hidx (bodyID_liveID t k hk) with
        ⟨hidx2, _⟩ | ⟨_, hb2⟩
      · exact hinv.pending t (List.mem_iff_getElem?.mpr ⟨idx, hidx2⟩) k hk u hu2 hid
      · omega
    · exact hst

/-- An `INSERT` of a pending record, with at most one goroutine started for
it, keeps each record `pending` while a goroutine that carries its
identifier runs. -/
theorem untouched_insert (s : Sys) (hinv : s.Inv) (id : Int) (hun : s.Untouched id)
    (now : Nat) (f src dst : String) (l : List TaskState)
    (hl : l = [] ∨ ∃ u : Upload, u.ID = s.db.lastID + 1 ∧ l = [TaskState.moving u]) :
    Sys.Untouched { db := s.db.execInsert now f src dst "pending", tasks := s.tasks ++ l } id := by
  intro t ht hk u hu hid
  simp only [DB.execInsert, List.mem_append, List.mem_singleton] at hu
  rcases hu with hu | rfl
  · obtain ⟨idx, hidx⟩ := List.mem_iff_getElem?.mp ht
    rcases append_liveID s hinv l hl idx t id hidx hk with ⟨hidx2, _⟩ | ⟨_, hb2⟩
    · exact hun t (List.mem_iff_getElem?.mpr ⟨idx, hidx2⟩) hk u hu hid
    · have := hinv.rowsBounded u hu
      omega
  · rfl

/-- Every step keeps the invariant. -/
theorem inv_next (fs : Paths) (uploadDir : String) (s : Sys) (a : Action) (hinv : s.Inv) :
    (s.next fs uploadDir a).Inv := by
  cases a with
  | upload env r =>
    rcases UploadFileHandler_cases fs env s.db uploadDir r with
      ⟨hdb, hnone, _⟩ | ⟨f, hdb, hnone, _⟩ | ⟨form, header, _, _, _, _, _, _, heq⟩
    · have hs : s.next fs uploadDir (.upload env r) = s := by
        simp [Sys.next, hdb, hnone]
      rw [hs]; exact hinv
    · have h := inv_insert s hinv env.now f (fs.Join fs.TempDir f) (fs.Join uploadDir f) []
        (Or.inl rfl)
      simpa [Sys.next, hdb, hnone] using h
    · have h := inv_insert s hinv env.now header.Filename
        (fs.Join fs.TempDir header.Filename) (fs.Join uploadDir header.Filename)
        [TaskState.moving { newUpload fs uploadDir header.Filename with ID := s.db.lastID + 1 }]
        (Or.inr ⟨_, rfl, rfl⟩)
      simpa [Sys.next, heq] using h
  | task j ro eo =>
    cases hj : s.tasks[j]? with
    | none =>
      have hs : s.next fs uploadDir (.task j ro eo) = s := by simp [Sys.next, hj]
      rw [hs]; exact hinv
    | some t =>
      have hmem : t ∈ s.tasks := List.mem_iff_getElem?.mpr ⟨j, hj⟩
      have hnext : s.next fs uploadDir (.task j ro eo) =
          { db := (t.step ro eo s.db).1, tasks := s.tasks.set j (t.step ro eo s.db).2 } := by
        simp [Sys.next, hj]
      rw [hnext]
      have hlive := step_liveID ro eo s.db t
      have hlid := step_lastID ro eo s.db t
      have hold : ∀ idx x k, (s.tasks.set j (t.step ro eo s.db).2)[idx]? = some x →
          x.liveID = some k →
          ∃ y, s.tasks[idx]? = some y ∧ y.liveID = some k ∧ (idx ≠ j → x = y) ∧
            (idx = j → x = (t.step ro eo s.db).2) :=
        fun idx x k hx hk => set_liveID s.tasks j t _ hj hlive idx x k hx hk
      have hrowsID : ∀ u ∈ (t.step ro eo s.db).1.rows, ∃ u0 ∈ s.db.rows, u.ID = u0.ID := by
        intro u hu
        rcases step_db ro eo s.db t with hdb | ⟨k, st, msg, _, hdb⟩
        · rw [hdb] at hu; exact ⟨u, hu, rfl⟩
        · rw [hdb] at hu
          obtain ⟨u0, hu0, hid, _⟩ := execUpdate_mem s.db st msg k u hu
          exact ⟨u0, hu0, hid⟩
      refine ⟨?_, ?_, ?_, ?_⟩
      · intro u hu
        show u.ID ≤ (t.step ro eo s.db).1.lastID
        rw [hlid]
        obtain ⟨u0, hu0, hid⟩ := hrowsID u hu
        rw [hid]; exact hinv.rowsBounded u0 hu0
      · intro x hx k hk
        show k ≤ (t.step ro eo s.db).1.lastID
        rw [hlid]
        obtain ⟨idx, hidx⟩ := List.mem_iff_getElem?.mp hx
        obtain ⟨y, hy, hyk, _⟩ := hold idx x k hidx hk
        exact hinv.tasksBounded y (List.mem_iff_getElem?.mpr ⟨idx, hy⟩) k hyk
      · intro i1 i2 ti tj k hi1 hi2 hk1 hk2
        obtain ⟨y1, hy1, hyk1, _⟩ := hold i1 ti k hi1 hk1
        obtain ⟨y2, hy2, hyk2, _⟩ := hold i2 tj k hi2 hk2
        exact hinv.distinct i1 i2 y1 y2 k hy1 hy2 hyk1 hyk2
      · intro x hx k hk u hu hid
        obtain ⟨idx, hidx⟩ := List.mem_iff_getElem?.mp hx
        obtain ⟨y, hy, hyk, hxne, hxj⟩ := hold idx x k hidx (bodyID_liveID x k hk)
        by_cases hidxj : idx = j
        · rw [hxj hidxj] at hk
          obtain ⟨hbody, hsame⟩ := step_bodyID ro eo s.db t k hk
          rw [hsame] at hu
          exact hinv.pending t hmem k hbody u hu hid
        · have hxy := hxne hidxj
          subst hxy
          have hxmem : x ∈ s.tasks := List.mem_iff_getElem?.mpr ⟨idx, hy⟩
          rcases step_db ro eo s.db t with hdb | ⟨k0, st, msg, hlive0, hdb⟩
          · rw [hdb] at hu
            exact hinv.pending x hxmem k hk u hu hid
          · have hk0 : k ≠ k0 := by
              intro hkk
              subst hkk
              exact hidxj (hinv.distinct idx j x t k hy hj hyk hlive0)
            rw [hdb] at hu
            obtain ⟨u0, hu0, hid0, hsame0⟩ := execUpdate_mem s.db st msg k0 u hu
            have hu0k : u0.ID ≠ k0 := by rw [← hid0, hid]; exact hk0
            rw [hsame0 hu0k]
            exact hinv.pending x hxmem k hk u0 hu0 (by rw [← hid0]; exact hid)

/-- Every step that is not the status update of the body of the goroutine
carrying `id`, panicking after it took effect, keeps the record `id`
`pending` while a goroutine that carries `id` runs. -/
theorem untouched_next (fs : Paths) (uploadDir : String) (s : Sys) (a : Action) (id : Int)
    (hinv : s.Inv) (hun : s.Untouched id) (hclean : a.overwrites s id = false) :
    (s.next fs uploadDir a).Untouched id := by
  cases a with
  | upload env r =>
    rcases UploadFileHandler_cases fs env s.db uploadDir r with
      ⟨hdb, hnone, _⟩ | ⟨f, hdb, hnone, _⟩ | ⟨form, header, _, _, _, _, _, _, heq⟩
    · have hs : s.next fs uploadDir (.upload env r) = s := by
        simp [Sys.next, hdb, hnone]
      rw [hs]; exact hun
    · have h := untouched_insert s hinv id hun env.now f (fs.Join fs.TempDir f)
        (fs.Join uploadDir f) [] (Or.inl rfl)
      simpa [Sys.next, hdb, hnone] using h
    · have h := untouched_insert s hinv id hun env.now header.Filename
        (fs.Join fs.TempDir header.Filename) (fs.Join uploadDir header.Filename)
        [TaskState.moving { newUpload fs uploadDir header.Filename with ID := s.db.lastID + 1 }]
        (Or.inr ⟨_, rfl, rfl⟩)
      simpa [Sys.next, heq] using h
  | task j ro eo =>
    cases hj : s.tasks[j]? with
    | none =>
      have hs : s.next fs uploadDir (.task j ro eo) = s := by simp [Sys.next, hj]
      rw [hs]; exact hun
    | some t =>
      have hnext : s.next fs uploadDir (.task j ro eo) =
          { db := (t.step ro eo s.db).1, tasks := s.tasks.set j (t.step ro eo s.db).2 } := by
        simp [Sys.next, hj]
      rw [hnext]
      intro x hx hk u hu hid
      obtain ⟨idx, hidx⟩ := List.mem_iff_getElem?.mp hx
      obtain ⟨y, hy, hyk, hxne, hxj⟩ :=
        set_liveID s.tasks j t _ hj (step_liveID ro eo s.db t) idx x id hidx hk
      have hymem : y ∈ s.tasks := List.mem_iff_getElem?.mpr ⟨idx, hy⟩
      rcases step_db ro eo s.db t with hdb | ⟨k0, st, msg, hlive0, hdb⟩
      · simp only [hdb] at hu
        exact hun y hymem hyk u hu hid
      · by_cases hidxj : idx = j
        · subst hidxj
          have hyt : y = t := by
            rw [hj] at hy
            exact (Option.some.inj hy).symm
          subst hyt
          have hcl : ∀ upload status msg v, y = .updating upload status msg →
              eo ≠ .panic v true := by
            intro up st2 msg2 v hteq heo
            subst hteq heo
            simp only [TaskState.liveID, Option.some.injEq] at hyk
            simp [Action.overwrites, hj, hyk] at hclean
          rcases step_last_write ro eo s.db y hcl with hsame | hdone
          · simp only [hsame] at hu
            exact hun y hymem hyk u hu hid
          · rw [hxj rfl, hdone] at hk
            cases hk
        · have hk0 : id ≠ k0 := by
            intro hkk
            subst hkk
            exact hidxj (hinv.distinct idx j y t id hy hj hyk hlive0)
          simp only [hdb] at hu
          obtain ⟨u0, hu0, hid0, hsame0⟩ := execUpdate_mem s.db st msg k0 u hu
          have hu0k : u0.ID ≠ k0 := by rw [← hid0, hid]; exact hk0
          rw [hsame0 hu0k]
          exact hun y hymem hyk u0 hu0 (by rw [← hid0]; exact hid)

/-- The system at start satisfies the invariant. -/
theorem inv_init : Sys.init.Inv := by
  refine ⟨?_, ?_, ?_, ?_⟩
  · intro u hu; simp [Sys.init, DB.empty] at hu
  · intro t ht; simp [Sys.init] at ht
  · intro i j ti tj k hi; simp [Sys.init] at hi
  · intro t ht; simp [Sys.init] at ht

/-- Every run keeps the invariant. -/
theorem inv_run (fs : Paths) (uploadDir : String) (actions : List Action) :
    ∀ s : Sys, s.Inv → (Sys.run fs uploadDir s actions).Inv := by
  induction actions with
  | nil => intro s h; exact h
  | cons a actions ih =>
    intro s hinv
    exact ih _ (inv_next fs uploadDir s a hinv)

/-- A run in which the status update of the body of the goroutine carrying
`id` never panics after taking effect keeps the record `id` `pending` while
a goroutine that carries `id` runs. -/
theorem untouched_run (fs : Paths) (uploadDir : String) (id : Int) (actions : List Action) :
    ∀ s : Sys, s.Inv → s.Untouched id → Sys.clean fs uploadDir id s actions = true →
      (Sys.run fs uploadDir s actions).Untouched id := by
  induction actions with
  | nil => intro s _ h _; exact h
  | cons a actions ih =>
    intro s hinv hun hclean
    simp only [Sys.clean, Bool.and_eq_true, Bool.not_eq_true'] at hclean
    exact ih _ (inv_next fs uploadDir s a hinv)
      (untouched_next fs uploadDir s a id hinv hun hclean.1) hclean.2

/-- Three calls of the goroutine, one after the other, leave the store and
the goroutine as `relocationTask` does in one piece. -/
theorem relocationTask_eq_steps (env : TaskEnv) (db : DB) (upload : Upload) (ro : RenameOutcome) :
    ((((TaskState.moving upload).step env.rename env.update db).2.step ro env.second
        ((TaskState.moving upload).step env.rename env.update db).1).2.step ro env.recovery
      (((TaskState.moving upload).step env.rename env.update db).2.step ro env.second
        ((TaskState.moving upload).step env.rename env.update db).1).1) =
      ((relocationTask env db upload).db, (relocationTask env db upload).exit.state) := by
  cases hr : env.rename with
  | panic v =>
    cases hrec : env.recovery with
    | panic v2 a =>
      cases a <;>
        simp [TaskState.step, relocationTask, recovered, moveFile, updateUploadStatus,
          TaskEnv.second, TaskExit.state, hr, hrec]
    | ok =>
      simp [TaskState.step, relocationTask, recovered, moveFile, updateUploadStatus,
        TaskEnv.second, TaskExit.state, hr, hrec]
    | err e =>
      simp [TaskState.step, relocationTask, recovered, moveFile, updateUploadStatus,
        TaskEnv.second, TaskExit.state, hr, hrec]
  | ok =>
    cases hu : env.update with
    | panic v a =>
      cases hrec : env.recovery with
      | panic v2 a2 =>
        cases a <;> cases a2 <;>
          simp [TaskState.step, relocationTask, recovered, moveFile, updateUploadStatus,
            TaskEnv.second, TaskExit.state, hr, hu, hrec]
      | ok =>
        cases a <;>
          simp [TaskState.step, relocationTask, recovered, moveFile, updateUploadStatus,
            TaskEnv.second, TaskExit.state, hr, hu, hrec]
      | err e =>
        cases a <;>
          simp [TaskState.step, relocationTask, recovered, moveFile, updateUploadStatus,
            TaskEnv.second, TaskExit.state, hr, hu, hrec]
    | ok =>
      simp [TaskState.step, relocationTask, moveFile, updateUploadStatus,
        TaskEnv.second, TaskExit.state, hr, hu]
    | err e =>
      simp [TaskState.step, relocationTask, moveFile, updateUploadStatus,
        TaskEnv.second, TaskExit.state, hr, hu]
  | err errno =>
    cases hu : env.update with
    | panic v a =>
      cases hrec : env.recovery with
      | panic v2 a2 =>
        cases a <;> cases a2 <;>
          simp [TaskState.step, relocationTask, recovered, moveFile, updateUploadStatus,
            TaskEnv.second, TaskExit.state, hr, hu, hrec]
      | ok =>
        cases a <;>
          simp [TaskState.step, relocationTask, recovered, moveFile, updateUploadStatus,
            TaskEnv.second, TaskExit.state, hr, hu, hrec]
      | err e =>
        cases a <;>
          simp [TaskState.step, relocationTask, recovered, moveFile, updateUploadStatus,
            TaskEnv.second, TaskExit.state, hr, hu, hrec]
    | ok =>
      simp [TaskState.step, relocationTask, moveFile, updateUploadStatus,
        TaskEnv.second, TaskExit.state, hr, hu]
    | err e =>
      simp [TaskState.step, relocationTask, moveFile, updateUploadStatus,
        TaskEnv.second, TaskExit.state, hr, hu]

/-- C4 as stated fails: the upload is accepted, the move succeeds, the status
update of the body takes effect and then panics, so the record is `success`;
the deferred function then writes `failed` over it. -/
theorem success_overwritten_by_recovery :
    ((Sys.run samplePaths "uploads" Sys.init sampleRun).db.rows[0]?).map Upload.Status =
      some "success" ∧
    ((((Sys.run samplePaths "uploads" Sys.init sampleRun).next samplePaths "uploads"
      (.task 0 .ok .ok)).db.rows[0]?).map Upload.Status) = some "failed" ∧
    ((Sys.run samplePaths "uploads" Sys.init sampleRun).db.rows[0]?).map Upload.ID =
      ((((Sys.run samplePaths "uploads" Sys.init sampleRun).next samplePaths "uploads"
        (.task 0 .ok .ok)).db.rows[0]?).map Upload.ID) := by
  refine ⟨by decide, by decide, by decide⟩

/-- C4, amended: along every execution from the empty store, a step keeps
each record at its position with its identifier, file name, paths and upload
time, and changes it only when it is a call of the running goroutine that
carries its identifier; the status of a record is always `pending`,
`success` or `failed`; a step leaves it unchanged or sets it to `success` or
`failed`, so it never returns to `pending`; `failed` is never left; a record
that is `success` or `failed` is changed only by the status update of the
deferred function of its own goroutine, which sets it to `failed`; and as
long as the status update of the body of its own goroutine has not panicked
after taking effect, a record that is `success` or `failed` is not changed
by any further step. -/
theorem status_transitions (fs : Paths) (uploadDir : String) (actions : List Action)
    (a : Action) (i : Nat) (u : Upload)
    (hu : (Sys.run fs uploadDir Sys.init actions).db.rows[i]? = some u) :
    ∃ u2, ((Sys.run fs uploadDir Sys.init actions).next fs uploadDir a).db.rows[i]? = some u2 ∧
      (u2.ID = u.ID ∧ u2.Filename = u.Filename ∧ u2.SourcePath = u.SourcePath ∧
        u2.DestinationPath = u.DestinationPath ∧ u2.UploadTime = u.UploadTime) ∧
      (u.Status = "pending" ∨ u.Status = "success" ∨ u.Status = "failed") ∧
      (u2.Status = u.Status ∨ u2.Status = "success" ∨ u2.Status = "failed") ∧
      (u2 = u ∨ a.stepsTask (Sys.run fs uploadDir Sys.init actions) u.ID = true) ∧
      (u.Status = "failed" → u2.Status = "failed") ∧
      (u.Status ≠ "pending" →
        u2 = u ∨
        (u2.Status = "failed" ∧
          a.recovers (Sys.run fs uploadDir Sys.init actions) u.ID = true)) ∧
      (u.Status ≠ "pending" → u2.Status ≠ "pending") ∧
      (Sys.clean fs uploadDir u.ID Sys.init actions = true → u.Status ≠ "pending" → u2 = u) := by
  have hg := good_run fs uploadDir actions Sys.init good_init
  have hinv := inv_run fs uploadDir actions Sys.init inv_init
  obtain ⟨u2, hrow, hfix, hch⟩ := next_row fs uploadDir _ a i u hu
  have humem : u ∈ (Sys.run fs uploadDir Sys.init actions).db.rows :=
    List.mem_iff_getElem?.mpr ⟨i, hu⟩
  refine ⟨u2, hrow, hfix, (hg.1 u humem).2, ?_⟩
  rcases hch with rfl | ⟨j, ro, eo, t, rfl, hj, hcase⟩
  · exact ⟨Or.inl rfl, Or.inl rfl, fun h => h, fun _ => Or.inl rfl, fun h => h,
      fun _ _ => rfl⟩
  · have hmem : t ∈ (Sys.run fs uploadDir Sys.init actions).tasks :=
      List.mem_iff_getElem?.mpr ⟨j, hj⟩
    rcases hcase with ⟨up, st, msg, rfl, hid, rfl⟩ | ⟨up, r, rfl, hid, rfl⟩
    · have hpend : u.Status = "pending" :=
        hinv.pending _ hmem u.ID (by simp [TaskState.bodyID, hid]) u humem rfl
      have hst : st = "success" ∨ st = "failed" := by
        obtain ⟨hp, hnp⟩ := hg.2 up st msg hmem
        rcases hp.2 with h1 | h1 | h1
        · exact absurd h1 hnp
        · exact Or.inl h1
        · exact Or.inr h1
      refine ⟨Or.inr hst, Or.inr ?_, ?_, ?_, ?_, ?_⟩
      · simp [Action.stepsTask, hj, TaskState.liveID, hid]
      · intro hf; rw [hf] at hpend; exact absurd hpend (by decide)
      · intro hnp; exact absurd hpend hnp
      · intro hnp; exact absurd hpend hnp
      · intro _ hnp; exact absurd hpend hnp
    · refine ⟨Or.inr (Or.inr rfl), Or.inr ?_, fun _ => rfl, ?_, ?_, ?_⟩
      · simp [Action.stepsTask, hj, TaskState.liveID, hid]
      · intro _
        exact Or.inr ⟨rfl, by simp [Action.recovers, hj, hid]⟩
      · intro _; show "failed" ≠ "pending"; decide
      · intro hclean hnp
        have hun := untouched_run fs uploadDir u.ID actions Sys.init inv_init
          (by intro t ht; simp [Sys.init] at ht) hclean
        exact absurd (hun _ hmem (by simp [TaskState.liveID, hid]) u humem rfl) hnp

/-- C4, amended, at a relocated record when a further upload arrives. -/
theorem status_transitions_witness :
    (Sys.run samplePaths "uploads" Sys.init sampleDoneRun).db.rows[0]? = some sampleDoneRow ∧
    Sys.clean samplePaths "uploads" sampleDoneRow.ID Sys.init sampleDoneRun = true ∧
    sampleDoneRow.Status ≠ "pending" ∧
    ((Sys.run samplePaths "uploads" Sys.init sampleDoneRun).next samplePaths "uploads"
      (.upload sampleEnv sampleUpload)).db.rows[0]? = some sampleDoneRow := by
  have h := status_transitions samplePaths "uploads" sampleDoneRun
    (.upload sampleEnv sampleUpload) 0 sampleDoneRow (by decide)
  obtain ⟨u2, hrow, _, _, _, _, _, _, _, hsame⟩ := h
  have hc : Sys.clean samplePaths "uploads" sampleDoneRow.ID Sys.init sampleDoneRun = true := by
    decide
  have hnp : sampleDoneRow.Status ≠ "pending" := by decide
  rw [hsame hc hnp] at hrow
  exact ⟨by decide, hc, hnp, hrow⟩

/-- C3 at the record a recovered panic marked `failed`. -/
theorem error_detail_iff_failed_witness :
    sampleFailedRow ∈ (Sys.run samplePaths "uploads" Sys.init sampleRecoveredRun).db.rows ∧
    sampleFailedRow.Status = "failed" ∧
    sampleFailedRow.ErrorMessage ≠ "" :=
  have h := error_detail_iff_failed samplePaths "uploads" sampleRecoveredRun sampleFailedRow
    (by decide)
  ⟨by decide, rfl, h.2.1 rfl⟩

/-- Every store the system reaches has its identifiers bounded by the
counter, as `accepted_upload_pending` assumes. -/
theorem reachable_rows_bounded (fs : Paths) (uploadDir : String) (actions : List Action) :
    ∀ s : Sys, (∀ u ∈ s.db.rows, u.ID ≤ s.db.lastID) →
      ∀ u ∈ (Sys.run fs uploadDir s actions).db.rows,
        u.ID ≤ (Sys.run fs uploadDir s actions).db.lastID := by
  induction actions with
  | nil => intro s h; exact h
  | cons a actions ih =>
    intro s h
    apply ih
    cases a with
    | upload env r =>
      have hins : ∀ (now : Nat) (f src dst : String),
          ∀ u ∈ (s.db.execInsert now f src dst "pending").rows,
            u.ID ≤ (s.db.execInsert now f src dst "pending").lastID := by
        intro now f src dst u hu
        simp only [DB.execInsert, List.mem_append, List.mem_singleton] at hu ⊢
        rcases hu with hu | rfl
        · have := h u hu; omega
        · exact le_refl _
      rcases UploadFileHandler_cases fs env s.db uploadDir r with
        ⟨hdb, _, _⟩ | ⟨f, hdb, _, _⟩ | ⟨form, header, _, _, _, _, _, _, heq⟩
      · simpa [Sys.next, hdb] using h
      · simpa [Sys.next, hdb] using hins _ _ _ _
      · simpa [Sys.next, heq] using hins _ _ _ _
    | task j ro eo =>
      cases hj : s.tasks[j]? with
      | none => simpa [Sys.next, hj] using h
      | some t =>
        intro u hu
        simp only [Sys.next, hj] at hu ⊢
        rw [step_lastID]
        have hupd : ∀ (st msg : String) (k : Int), u ∈ (s.db.execUpdate st msg k).rows →
            u.ID ≤ s.db.lastID := by
          intro st msg k hmem
          simp only [DB.execUpdate, List.mem_map] at hmem
          obtain ⟨u0, hu0, rfl⟩ := hmem
          have := h u0 hu0
          by_cases hk : u0.ID = k <;> simpa [hk] using this
        cases t with
        | moving upload =>
          cases ro <;> exact h u (by simpa [TaskState.step, moveFile] using hu)
        | updating upload status msg =>
          cases eo with
          | ok => exact hupd _ _ _ (by simpa [TaskState.step, updateUploadStatus] using hu)
          | err e => exact h u (by simpa [TaskState.step, updateUploadStatus] using hu)
          | panic v applied =>
            cases applied
            · exact h u (by simpa [TaskState.step, updateUploadStatus] using hu)
            · exact hupd _ _ _ (by simpa [TaskState.step, updateUploadStatus] using hu)
        | recovering upload r =>
          cases eo with
          | ok => exact hupd _ _ _ (by simpa [TaskState.step, updateUploadStatus] using hu)
          | err e => exact h u (by simpa [TaskState.step, updateUploadStatus] using hu)
          | panic v applied =>
            cases applied
            · exact h u (by simpa [TaskState.step, updateUploadStatus] using hu)
            · exact hupd _ _ _ (by simpa [TaskState.step, updateUploadStatus] using hu)
        | returned => exact h u (by simpa [TaskState.step] using hu)
        | crashed v => exact h u (by simpa [TaskState.step] using hu)

end FileUpload
